import Mathlib

/-!
Shallow embedding of the LobSec USDC Security Scanner core
(`index.js`, `lib/constants.js`, `lib/address-checker.js`,
`lib/pattern-detector.js`, `lib/cctp-analyzer.js`, `lib/report.js`).

Conventions of the embedding:
* JavaScript numbers holding USDC amounts or confidences are modelled as `Rat`;
  integer-valued scores, impacts, block numbers and transaction counts as `Int`.
* The blockchain transport (`RpcClient`) is the abstract `DataSource`; each
  operation returns `Except String _` so that any per-call failure pattern can
  be quantified over.  `.catch(() => [])` becomes `.toOption.getD []`.
* Functions that `throw` on invalid input return `Except String _`; functions
  that catch all their internal errors are total.
* JS `Set` insertion becomes `addFlag` (append if absent); JS object key
  grouping becomes `dedup` of the key list plus `filter` for each group, which
  yields exactly the lists the single-pass JS grouping builds.
* Free-text `detail` fields and report formatting are not modelled; `Finding`
  evidence payloads are not stored (the quantities derived from them —
  pair counts, burst sizes — are exposed as named definitions instead).
* The 5-minute profile cache is elided: we model the cache-miss computation,
  which is what every claim is about.
-/

namespace USDCScanner

/-! ## Data model -/

/-- A USDC `Transfer` log entry as produced by the DataSource
(`rpc.getUSDCTransfers`).  `from` is a Lean keyword, hence `fromAddr`. -/
structure Transfer where
  txHash : String
  blockNumber : Int
  fromAddr : String
  toAddr : String
  amountUSDC : Rat
deriving DecidableEq, Repr

/-- A CCTP `DepositForBurn` event.  `cctp-analyzer.js` tags each deposit with
the chain it was fetched from (`{ ...d, sourceChain: chain }`). -/
structure CCTPDeposit where
  txHash : String
  blockNumber : Int
  sourceChain : String
deriving DecidableEq, Repr

/-- A raw scam-registry entry (`data/scam-addresses.json` value). -/
structure ScamEntryRaw where
  label : String
  category : String
  severity : String
  details : String
deriving DecidableEq, Repr

/-- The abstract blockchain DataSource (`RpcClient`): every operation is
scoped by a chain identifier and may fail. -/
structure DataSource where
  isContract : String → String → Except String Bool
  getTransactionCount : String → String → Except String Int
  getUSDCBalance : String → String → Except String Int
  getBalance : String → String → Except String Int
  getUSDCTransfers : String → String → Except String (List Transfer)
  getCCTPDeposits : String → String → Except String (List CCTPDeposit)

/-! ## Constants (`lib/constants.js`) -/

def WASH_TRADE_MIN_CYCLES : Nat := 3

def WASH_TRADE_AMOUNT_TOLERANCE : Rat := 1/100

def FLASH_LOAN_MIN_AMOUNT : Rat := 10000

def HIGH_VELOCITY_TXS_PER_HOUR : Nat := 20

def LARGE_TRANSFER_USDC : Rat := 50000

def SUPPORTED_CHAINS : List String := ["ethereum", "base", "arbitrum"]

/-- JS `toLowerCase()` on the ASCII strings this codebase handles, written as
a structural `map` so that it evaluates by kernel reduction.  Provably equal
to `String.toLower` (`jsToLower_eq_toLower` below). -/
def jsToLower (s : String) : String := ⟨s.data.map Char.toLower⟩

/-- JS `toUpperCase()`; provably equal to `String.toUpper`. -/
def jsToUpper (s : String) : String := ⟨s.data.map Char.toUpper⟩

/-- `SEVERITY_WEIGHTS[severity] || 50`, translated as a total function with
the JS `|| 50` fallback for unknown severities. -/
def severityWeight (severity : String) : Int :=
  if severity = "critical" then 95
  else if severity = "high" then 75
  else if severity = "medium" then 45
  else if severity = "low" then 20
  else if severity = "info" then 5
  else 50

/-- One band of the `RISK_LEVELS` table. -/
structure RiskBand where
  label : String
  lo : Int
  hi : Int
deriving DecidableEq, Repr

/-- The `RISK_LEVELS` table of `lib/constants.js`. -/
def RISK_LEVELS : List RiskBand :=
  [⟨"CLEAN", 0, 9⟩, ⟨"LOW", 10, 39⟩, ⟨"MEDIUM", 40, 69⟩,
   ⟨"HIGH", 70, 89⟩, ⟨"CRITICAL", 90, 100⟩]

/-- `_scoreToLevel` of `index.js` (identical if-chain in
`address-checker.js` step 4). -/
def scoreToLevel (score : Int) : String :=
  if score ≥ 90 then "CRITICAL"
  else if score ≥ 70 then "HIGH"
  else if score ≥ 40 then "MEDIUM"
  else if score ≥ 10 then "LOW"
  else "CLEAN"

/-- The band a score falls in, looked up from the `RISK_LEVELS` table the way
`report.js` does: `Object.values(RISK_LEVELS).find(r => s >= r.min && s <= r.max)
|| RISK_LEVELS.CLEAN`. -/
def bandOf (score : Int) : String :=
  ((RISK_LEVELS.find? fun r => decide (r.lo ≤ score) && decide (score ≤ r.hi)).getD
    ⟨"CLEAN", 0, 9⟩).label

/-! ## AddressChecker (`lib/address-checker.js`) -/

/-- Result of `checkScamDatabase` (a scam-registry hit). -/
structure ScamMatch where
  label : String
  category : String
  severity : String
  details : String
  riskScore : Int
deriving DecidableEq, Repr

/-- `_loadScamDatabase`: normalize all registry addresses to lowercase. -/
def normalizeDb (raw : List (String × ScamEntryRaw)) : List (String × ScamEntryRaw) :=
  raw.map fun e => (jsToLower e.1, e.2)

/-- `checkScamDatabase`: lowercase the queried address, look it up, and attach
the severity weight as `riskScore`. -/
def checkScamDatabase (db : List (String × ScamEntryRaw)) (address : String) :
    Option ScamMatch :=
  match db.lookup (jsToLower address) with
  | none => none
  | some e => some ⟨e.label, e.category, e.severity, e.details, severityWeight e.severity⟩

/-- A named contributor to the aggregate score (free-text `detail` omitted). -/
structure RiskFactor where
  factor : String
  impact : Int
deriving DecidableEq, Repr

/-- The risk factor recorded when a DataSource call fails during profile
analysis (`catch` branch of `analyzeAddressProfile`). -/
def rpcErrorFactor : RiskFactor := ⟨"Failed to query on-chain data", 10⟩

/-- Behavioral snapshot of an address on one chain. -/
structure AddressProfile where
  address : String
  chain : String
  isContract : Bool
  txCount : Int
  usdcBalance : Int
  ethBalance : Int
  usdcBalanceFormatted : Rat
  ethBalanceFormatted : Rat
  flags : List String
  riskFactors : List RiskFactor
deriving DecidableEq, Repr

/-- The `catch (err)` branch of `analyzeAddressProfile`: keep whatever fields
were already populated and append the `RPC_ERROR` flag and its risk factor. -/
def degradeProfile (p : AddressProfile) : AddressProfile :=
  { p with flags := p.flags ++ ["RPC_ERROR"], riskFactors := p.riskFactors ++ [rpcErrorFactor] }

/-- `analyzeAddressProfile` (cache elided).  The four DataSource calls happen
in source order; the first failure jumps to the catch branch, so fields
assigned earlier survive and the flag analysis is skipped. -/
def analyzeAddressProfile (ds : DataSource) (address chain : String) : AddressProfile :=
  let base : AddressProfile :=
    ⟨jsToLower address, chain, false, 0, 0, 0, 0, 0, [], []⟩
  match ds.isContract chain address with
  | .error _ => degradeProfile base
  | .ok isC =>
    let p1 := { base with isContract := isC }
    match ds.getTransactionCount chain address with
    | .error _ => degradeProfile p1
    | .ok tc =>
      let p2 := { p1 with txCount := tc }
      match ds.getUSDCBalance chain address with
      | .error _ => degradeProfile p2
      | .ok rawB =>
        let p3 := { p2 with usdcBalance := rawB,
                             usdcBalanceFormatted := (rawB : Rat) / 1000000 }
        match ds.getBalance chain address with
        | .error _ => degradeProfile p3
        | .ok ethB =>
          let p4 := { p3 with ethBalance := ethB,
                               ethBalanceFormatted := (ethB : Rat) / 1000000000000000000 }
          let fr1 := if tc = 0 then
              (["NEVER_TRANSACTED"], [(⟨"No transaction history", 15⟩ : RiskFactor)])
            else ([], [])
          let fr2 := if tc < 5 ∧ p4.usdcBalanceFormatted > LARGE_TRANSFER_USDC then
              (["LOW_TX_HIGH_BALANCE"], [(⟨"Low transactions but high balance", 25⟩ : RiskFactor)])
            else ([], [])
          let fr3 := if isC then
              (["IS_CONTRACT"], [(⟨"Address is a smart contract", 5⟩ : RiskFactor)])
            else ([], [])
          let fr4 := if p4.ethBalanceFormatted < (1/1000 : Rat) ∧ tc > 0 then
              (["DUST_ETH"], [(⟨"Near-zero ETH balance", 10⟩ : RiskFactor)])
            else ([], [])
          { p4 with flags := fr1.1 ++ fr2.1 ++ fr3.1 ++ fr4.1,
                    riskFactors := fr1.2 ++ fr2.2 ++ fr3.2 ++ fr4.2 }

/-- One element of the `checkScamInteractions` result list. -/
structure Interaction where
  counterparty : String
  txHash : String
  amount : Rat
  direction : String
deriving DecidableEq, Repr

/-- `checkScamInteractions`: scan the address's USDC transfers for
counterparties found in the scam registry.  Transfer-fetch failures are
swallowed (`.catch(() => [])`). -/
def checkScamInteractions (db : List (String × ScamEntryRaw)) (ds : DataSource)
    (address chain : String) : List Interaction :=
  let transfers := (ds.getUSDCTransfers chain address).toOption.getD []
  transfers.filterMap fun tx =>
    let counterparty :=
      if jsToLower tx.fromAddr = jsToLower address then tx.toAddr else tx.fromAddr
    match checkScamDatabase db counterparty with
    | none => none
    | some _ =>
      some ⟨counterparty, tx.txHash, tx.amountUSDC,
        if jsToLower tx.fromAddr = jsToLower address then "sent" else "received"⟩

/-- JS `Set.add` on the flag list: append only if absent. -/
def addFlag (l : List String) (f : String) : List String :=
  if f ∈ l then l else l ++ [f]

/-- Terminal aggregate of `getReputation`. -/
structure Reputation where
  address : String
  overallScore : Int
  level : String
  chains : List (String × AddressProfile)
  scamMatch : Option ScamMatch
  interactions : List Interaction
  flags : List String
  riskFactors : List RiskFactor
deriving DecidableEq, Repr

/-- Per-chain body of the `getReputation` loop (the `try` around it can never
fire: `analyzeAddressProfile` and `checkScamInteractions` are total). -/
def reputationChainStep (db : List (String × ScamEntryRaw)) (ds : DataSource)
    (address : String) (rep : Reputation) (chain : String) : Reputation :=
  let profile := analyzeAddressProfile ds address chain
  let rep1 := { rep with
    chains := rep.chains ++ [(chain, profile)]
    flags := profile.flags.foldl addFlag rep.flags
    riskFactors := rep.riskFactors ++ profile.riskFactors }
  let interactions := checkScamInteractions db ds address chain
  if interactions.length > 0 then
    { rep1 with
      interactions := rep1.interactions ++ interactions
      flags := addFlag rep1.flags "SCAM_INTERACTIONS"
      riskFactors := rep1.riskFactors ++
        [⟨"Interacted with known scam address(es) on " ++ chain,
          min 50 ((interactions.length : Int) * 15)⟩] }
  else rep1

/-- `getReputation` of `address-checker.js`. -/
def getReputation (db : List (String × ScamEntryRaw)) (ds : DataSource)
    (address : String) (chains : List String) : Reputation :=
  let scamMatch := checkScamDatabase db address
  let init : Reputation :=
    ⟨jsToLower address, 0, "CLEAN", [], none, [], [], []⟩
  let afterScam :=
    match scamMatch with
    | some sm =>
      { init with
        scamMatch := some sm
        overallScore := sm.riskScore
        flags := addFlag init.flags ("KNOWN_" ++ jsToUpper sm.category)
        riskFactors := init.riskFactors ++
          [⟨"Known " ++ sm.category ++ ": " ++ sm.label, sm.riskScore⟩] }
    | none => init
  let afterChains := chains.foldl (reputationChainStep db ds address) afterScam
  let score :=
    match scamMatch with
    | some _ => afterChains.overallScore
    | none => min 100 ((afterChains.riskFactors.map (·.impact)).sum)
  { afterChains with overallScore := score, level := scoreToLevel score }

/-! ## PatternDetector (`lib/pattern-detector.js`) -/

/-- A pattern finding.  Evidence payloads and the free-text `detail` are not
stored; the counts they are built from are exposed as definitions below. -/
structure Finding where
  type : String
  severity : String
  riskImpact : Int
  confidence : Rat
deriving DecidableEq, Repr

/-- Counterparty of a transfer relative to `addr` (already lowercased):
`tx.from.toLowerCase() === addr ? tx.to.toLowerCase() : tx.from.toLowerCase()`. -/
def counterpartyOf (addr : String) (tx : Transfer) : String :=
  if jsToLower tx.fromAddr = addr then jsToLower tx.toAddr else jsToLower tx.fromAddr

/-- The `sent` list that the `detectWashTrading` grouping pass accumulates for
counterparty `cp`. -/
def washSent (addr : String) (transfers : List Transfer) (cp : String) : List Transfer :=
  transfers.filter fun tx =>
    decide (jsToLower tx.fromAddr = addr) && decide (counterpartyOf addr tx = cp)

/-- The `received` list that the `detectWashTrading` grouping pass accumulates
for counterparty `cp`. -/
def washReceived (addr : String) (transfers : List Transfer) (cp : String) : List Transfer :=
  transfers.filter fun tx =>
    !(decide (jsToLower tx.fromAddr = addr)) && decide (counterpartyOf addr tx = cp)

/-- The nested `matches` loop of `detectWashTrading`: for every (sent, received)
pair count a match when the amounts differ by at most 1% of the sent amount. -/
def washMatches (addr : String) (transfers : List Transfer) (cp : String) : Nat :=
  ((washSent addr transfers cp).map fun s =>
    (washReceived addr transfers cp).countP fun r =>
      decide (|s.amountUSDC - r.amountUSDC| ≤ s.amountUSDC * WASH_TRADE_AMOUNT_TOLERANCE)).sum

/-- The distinct counterparty keys of the grouping object. -/
def washKeys (addr : String) (transfers : List Transfer) : List String :=
  (transfers.map (counterpartyOf addr)).dedup

/-- The counterparties pushed onto `suspiciousPairs`: both directions present
and at least `WASH_TRADE_MIN_CYCLES` amount-matched pairs. -/
def washSuspicious (addr : String) (transfers : List Transfer) : List String :=
  (washKeys addr transfers).filter fun cp =>
    !(decide (washSent addr transfers cp = [])) &&
    !(decide (washReceived addr transfers cp = [])) &&
    decide (WASH_TRADE_MIN_CYCLES ≤ washMatches addr transfers cp)

/-- `detectWashTrading`. -/
def detectWashTrading (address : String) (transfers : List Transfer) : Option Finding :=
  let addr := jsToLower address
  let suspicious := washSuspicious addr transfers
  if suspicious.length = 0 then none
  else some ⟨"WASH_TRADING", "high", 35,
    min 95 (50 + (suspicious.length : Rat) * 15)⟩

/-- The distinct block-number keys of the `byBlock` grouping object. -/
def blockKeys (transfers : List Transfer) : List Int :=
  (transfers.map (·.blockNumber)).dedup

/-- The transfers grouped under block `b`. -/
def blockTxs (transfers : List Transfer) (b : Int) : List Transfer :=
  transfers.filter fun tx => decide (tx.blockNumber = b)

/-- The `largeTxs` list of a `detectFlashLoanPatterns` block: transfers of at
least $10K USDC. -/
def flashLargeTxs (txs : List Transfer) : List Transfer :=
  txs.filter fun tx => decide (tx.amountUSDC ≥ FLASH_LOAN_MIN_AMOUNT)

/-- The qualifying transfers received by `addr` in a block. -/
def flashReceivedTxs (addr : String) (txs : List Transfer) : List Transfer :=
  (flashLargeTxs txs).filter fun tx => decide (jsToLower tx.toAddr = addr)

/-- The qualifying transfers sent by `addr` in a block. -/
def flashSentTxs (addr : String) (txs : List Transfer) : List Transfer :=
  (flashLargeTxs txs).filter fun tx => decide (jsToLower tx.fromAddr = addr)

/-- Per-block body of `detectFlashLoanPatterns`: number of (received, sent)
pairs of ≥ $10K transfers in the block whose amounts match within 5% of the
received amount.  Each such pair is one entry pushed onto `suspiciousBlocks`. -/
def flashPairsInBlock (addr : String) (txs : List Transfer) : Nat :=
  if 2 ≤ (flashLargeTxs txs).length then
    if 0 < (flashReceivedTxs addr txs).length ∧ 0 < (flashSentTxs addr txs).length then
      ((flashReceivedTxs addr txs).map fun recv => (flashSentTxs addr txs).countP fun send =>
        decide (|recv.amountUSDC - send.amountUSDC| ≤ recv.amountUSDC * (5/100 : Rat))).sum
    else 0
  else 0

/-- Total length of `suspiciousBlocks`: one entry per matched pair, summed
over all blocks. -/
def flashPairCount (addr : String) (transfers : List Transfer) : Nat :=
  ((blockKeys transfers).map fun b => flashPairsInBlock addr (blockTxs transfers b)).sum

/-- `detectFlashLoanPatterns`. -/
def detectFlashLoanPatterns (address : String) (transfers : List Transfer) : Option Finding :=
  let n := flashPairCount (jsToLower address) transfers
  if n = 0 then none
  else some ⟨"FLASH_LOAN_PATTERN", "high", 40, min 90 (40 + (n : Rat) * 20)⟩

/-- The blocks that contribute at least one matched (received, sent) pair —
the claim's "matched blocks". -/
def flashMatchedBlocks (addr : String) (transfers : List Transfer) : List Int :=
  (blockKeys transfers).filter fun b => decide (0 < flashPairsInBlock addr (blockTxs transfers b))

/-- `blocksPerHour` of `detectHighVelocity`: `3600 / blockTimeEstimate.ethereum`
(the single-chain constant — see spec §9). -/
def BLOCKS_PER_HOUR : Int := 300

/-- The `while` loop advancing `windowStart` in `detectHighVelocity`:
advance while `windowStart < i` and the window exceeds `blocksPerHour`.
The loop runs at most `i - windowStart` times (the guard `windowStart < i`
caps it), so it is written with that iteration bound as structural fuel,
which keeps it kernel-computable; behavior is identical to the `while`. -/
def velAdvance (b : List Int) (i : Nat) : Nat → Nat → Nat
  | 0, ws => ws
  | fuel + 1, ws =>
    if ws < i ∧ BLOCKS_PER_HOUR < b.getD i 0 - b.getD ws 0 then
      velAdvance b i fuel (ws + 1)
    else ws

/-- One iteration of the `for` loop of `detectHighVelocity`: state is
`(windowStart, maxInWindow)`. -/
def velStep (b : List Int) (st : Nat × Nat) (i : Nat) : Nat × Nat :=
  let ws := velAdvance b i (i - st.1) st.1
  (ws, max st.2 (i - ws + 1))

/-- The sliding-window maximum computed by `detectHighVelocity` over the
sorted block-number list. -/
def maxInWindow (b : List Int) : Nat :=
  ((List.range b.length).foldl (velStep b) (0, 0)).2

/-- Transfers sorted by block number (`[...transfers].sort((a, b) =>
a.blockNumber - b.blockNumber)`). -/
def sortByBlock (transfers : List Transfer) : List Transfer :=
  transfers.mergeSort fun a b => decide (a.blockNumber ≤ b.blockNumber)

/-- `detectHighVelocity` (its `address` parameter is unused in the source). -/
def detectHighVelocity (_address : String) (transfers : List Transfer) : Option Finding :=
  if transfers.length < HIGH_VELOCITY_TXS_PER_HOUR then none
  else
    let m := maxInWindow ((sortByBlock transfers).map (·.blockNumber))
    if m < HIGH_VELOCITY_TXS_PER_HOUR then none
    else some ⟨"HIGH_VELOCITY", "medium", 20,
      min 85 (30 + ((m : Rat) / (HIGH_VELOCITY_TXS_PER_HOUR : Rat)) * 30)⟩

/-- Declarative sliding-window maximum: the largest number of transfers whose
block numbers lie within `BLOCKS_PER_HOUR` blocks ending at some transfer's
block.  `detectHighVelocity` is proved to compute exactly this. -/
def maxWindowSpec (transfers : List Transfer) : Nat :=
  let blocks := transfers.map (·.blockNumber)
  (blocks.map fun anchor =>
    blocks.countP fun b => decide (anchor - BLOCKS_PER_HOUR ≤ b ∧ b ≤ anchor)).foldr max 0

/-- One entry of the `directCircular` list of `detectCircularFlows`. -/
structure CircularEntry where
  counterparty : String
  totalSent : Rat
  totalReceived : Rat
  cycleCount : Nat
deriving DecidableEq, Repr

/-- `detectCircularFlows`. -/
def detectCircularFlows (address : String) (transfers : List Transfer) : Option Finding :=
  let addr := jsToLower address
  let sentTo := ((transfers.filter fun t => decide (jsToLower t.fromAddr = addr)).map
    (fun t => jsToLower t.toAddr)).dedup
  let receivedFrom := ((transfers.filter fun t => !(decide (jsToLower t.fromAddr = addr))).map
    (fun t => jsToLower t.fromAddr)).dedup
  let directCircular := (sentTo.filter fun cp => decide (cp ∈ receivedFrom)).map fun cp =>
    let sentTxs := transfers.filter fun t =>
      decide (jsToLower t.fromAddr = addr) && decide (jsToLower t.toAddr = cp)
    let recvTxs := transfers.filter fun t =>
      decide (jsToLower t.toAddr = addr) && decide (jsToLower t.fromAddr = cp)
    (⟨cp, (sentTxs.map (·.amountUSDC)).sum, (recvTxs.map (·.amountUSDC)).sum,
      min sentTxs.length recvTxs.length⟩ : CircularEntry)
  let significant := directCircular.filter fun c =>
    decide (2 ≤ c.cycleCount) && decide ((100 : Rat) < c.totalSent)
  if significant.length = 0 then none
  else some ⟨"CIRCULAR_FLOW",
    if significant.any fun c => decide ((10000 : Rat) < c.totalSent) then "high" else "medium",
    min 30 (10 + (significant.length : Int) * 5),
    min 80 (30 + (significant.length : Rat) * 10)⟩

/-- `detectLargeTransfers`. -/
def detectLargeTransfers (transfers : List Transfer) : Option Finding :=
  let large := transfers.filter fun tx => decide (tx.amountUSDC ≥ LARGE_TRANSFER_USDC)
  if large.length = 0 then none
  else
    let totalLargeVolume := (large.map (·.amountUSDC)).sum
    some ⟨"LARGE_TRANSFERS",
      if (1000000 : Rat) < totalLargeVolume then "high" else "medium",
      if (1000000 : Rat) < totalLargeVolume then 25 else 10, 100⟩

/-- `analyzePatterns`: run the five detectors and keep the findings, in
source order.  All five are total, so the `allSettled` fan-out always
fulfills. -/
def analyzePatterns (address : String) (transfers : List Transfer) : List Finding :=
  [detectWashTrading address transfers,
   detectFlashLoanPatterns address transfers,
   detectHighVelocity address transfers,
   detectCircularFlows address transfers,
   detectLargeTransfers transfers].filterMap id

/-! ## CCTPAnalyzer (`lib/cctp-analyzer.js`) -/

/-- Inner scan of `_detectRapidBridging` over a (sorted) per-chain deposit
list: for each start deposit, count the run of following deposits within 50
blocks (the inner `for` breaks at the first violation — `takeWhile`), and take
the maximum.  This recursion is the `for i` loop over start indices. -/
def burstScan : List CCTPDeposit → Nat
  | [] => 0
  | d :: rest =>
    max (1 + (rest.takeWhile fun e => decide (e.blockNumber - d.blockNumber ≤ 50)).length)
      (burstScan rest)

/-- Per-chain burst maximum of `_detectRapidBridging` (sort, then scan). -/
def maxBurstChain (deposits : List CCTPDeposit) : Nat :=
  burstScan (deposits.mergeSort fun a b => decide (a.blockNumber ≤ b.blockNumber))

/-- The distinct source-chain keys of the `byChain` grouping object. -/
def depositChains (deposits : List CCTPDeposit) : List String :=
  (deposits.map (·.sourceChain)).dedup

/-- The `maxBursts` value of `_detectRapidBridging`. -/
def maxBursts (deposits : List CCTPDeposit) : Nat :=
  ((depositChains deposits).map fun c =>
    maxBurstChain (deposits.filter fun d => decide (d.sourceChain = c))).foldr max 0

/-- `_detectRapidBridging`. -/
def detectRapidBridging (deposits : List CCTPDeposit) : Option Finding :=
  if deposits.length < 3 then none
  else
    let m := maxBursts deposits
    if m < 3 then none
    else some ⟨"RAPID_BRIDGING", if 5 ≤ m then "high" else "medium",
      min 35 (15 + (m : Int) * 5), min 85 (40 + (m : Rat) * 10)⟩

/-- Declarative burst maximum: the largest number of same-chain deposits whose
block numbers lie within a 50-block window starting at some deposit's block.
`_detectRapidBridging` is proved to compute exactly this. -/
def burstSpec (deposits : List CCTPDeposit) : Nat :=
  (deposits.map fun d => deposits.countP fun e =>
    decide (e.sourceChain = d.sourceChain ∧
      d.blockNumber ≤ e.blockNumber ∧ e.blockNumber ≤ d.blockNumber + 50)).foldr max 0

/-- `_detectChainHopping`. -/
def detectChainHopping (deposits : List CCTPDeposit) : Option Finding :=
  let chainsUsed := depositChains deposits
  if chainsUsed.length < 3 then none
  else some ⟨"CHAIN_HOPPING", "medium", 20, 60⟩

/-- Result of `analyzeCrossChainActivity` (summary flattened into fields). -/
structure CCTPAnalysis where
  cctpActivity : List CCTPDeposit
  patterns : List Finding
  riskFactors : List RiskFactor
  hasCCTPActivity : Bool
deriving DecidableEq, Repr

/-- `analyzeCrossChainActivity`: gather deposits per chain (failures yield an
empty list for that chain), tag each with its source chain, and run the
detectors.  `_detectRoundTrip` always returns `null` in the reference. -/
def analyzeCrossChainActivity (ds : DataSource) (address : String)
    (chains : List String) : CCTPAnalysis :=
  let allDeposits := (chains.map fun chain =>
    match ds.getCCTPDeposits chain address with
    | .error _ => []
    | .ok deps => deps.map fun d => { d with sourceChain := chain }).flatten
  if allDeposits.length = 0 then ⟨allDeposits, [], [], false⟩
  else
    let rapid := detectRapidBridging allDeposits
    let hop := detectChainHopping allDeposits
    let patterns := [rapid, hop].filterMap id
    let rfs :=
      (match rapid with
        | some p => [(⟨"Rapid cross-chain bridging detected", p.riskImpact⟩ : RiskFactor)]
        | none => []) ++
      (match hop with
        | some p => [(⟨"Chain hopping pattern detected", p.riskImpact⟩ : RiskFactor)]
        | none => [])
    ⟨allDeposits, patterns, rfs, true⟩

/-! ## USDCSecurityScanner (`index.js`) -/

/-- One hexadecimal digit, as in the character class of
`/^0x[0-9a-fA-F]{40}$/`. -/
def isHexDigit (c : Char) : Bool :=
  decide (('0' ≤ c ∧ c ≤ '9') ∨ ('a' ≤ c ∧ c ≤ 'f') ∨ ('A' ≤ c ∧ c ≤ 'F'))

/-- `_validateAddress`'s regex `/^0x[0-9a-fA-F]{40}$/` as a predicate. -/
def isValidAddress (s : String) : Bool :=
  match s.data with
  | '0' :: 'x' :: rest => decide (rest.length = 40) && rest.all isHexDigit
  | _ => false

/-- The `options.chains` argument of `scanAddress`/`getReputation`. -/
inductive ChainsOpt where
  | all
  | one (c : String)
  | many (cs : List String)

/-- The `options.depth` argument of `scanAddress`. -/
inductive Depth where
  | quick
  | standard
  | deep
deriving DecidableEq

/-- `_resolveChains`. -/
def resolveChains : ChainsOpt → List String
  | .all => SUPPORTED_CHAINS
  | .one c => [c]
  | .many cs => cs.filter fun c => decide (c ∈ SUPPORTED_CHAINS)

/-- Terminal aggregate of `scanAddress` (formatted report omitted). -/
structure ScanResult where
  address : String
  chains : List (String × AddressProfile)
  patterns : List Finding
  cctpRiskFactors : List RiskFactor
  reputation : Reputation
  overallScore : Int
  level : String
deriving DecidableEq, Repr

/-- Step 2 of `scanAddress`: the per-chain pattern findings, flattened.  A
chain whose transfer query fails, or returns no transfers, contributes no
findings (`Promise.allSettled` + the `null` early return). -/
def scanPatternFindings (ds : DataSource) (address : String)
    (chains : List String) : List Finding :=
  (chains.map fun chain =>
    let transfers := (ds.getUSDCTransfers chain address).toOption.getD []
    if transfers.length = 0 then []
    else analyzePatterns address transfers).flatten

/-- Step 2 of `scanAddress` as an update of the running result: for non-quick
depths, record the pattern findings and add their summed `riskImpact` to the
score, clamped at 100. -/
def scanStepPatterns (ds : DataSource) (address : String) (chains : List String)
    (depth : Depth) (r : ScanResult) : ScanResult :=
  if depth ≠ Depth.quick then
    let patterns := scanPatternFindings ds address chains
    let patternRisk := (patterns.map (·.riskImpact)).sum
    { r with patterns := patterns,
             overallScore := min 100 (r.overallScore + patternRisk) }
  else r

/-- Step 3 of `scanAddress` as an update of the running result: for deep
scans, record the CCTP risk factors and, when there is at least one, add
their summed impact to the score, clamped at 100. -/
def scanStepCCTP (ds : DataSource) (address : String) (chains : List String)
    (depth : Depth) (r : ScanResult) : ScanResult :=
  if depth = Depth.deep then
    let cctp := analyzeCrossChainActivity ds address chains
    if 0 < cctp.riskFactors.length then
      let cctpRisk := (cctp.riskFactors.map (·.impact)).sum
      { r with
        cctpRiskFactors := cctp.riskFactors
        overallScore := min 100 (r.overallScore + cctpRisk) }
    else { r with cctpRiskFactors := cctp.riskFactors }
  else r

/-- `scanAddress`: reputation, then pattern detection (non-quick), then CCTP
analysis (deep), then the final level.  Throws (`Except.error`) only on an
invalid address. -/
def scanAddress (db : List (String × ScamEntryRaw)) (ds : DataSource)
    (address : String) (chainsOpt : ChainsOpt) (depth : Depth) :
    Except String ScanResult :=
  if !(isValidAddress address) then .error "Invalid Ethereum address"
  else
    let chains := resolveChains chainsOpt
    let reputation := getReputation db ds address chains
    let base : ScanResult :=
      ⟨jsToLower address, reputation.chains, [], [], reputation,
        reputation.overallScore, "CLEAN"⟩
    let afterCCTP :=
      scanStepCCTP ds address chains depth
        (scanStepPatterns ds address chains depth base)
    .ok { afterCCTP with level := scoreToLevel afterCCTP.overallScore }

/-- The scanner-level `getReputation` wrapper of `index.js`: validate the
address, then delegate to the AddressChecker. -/
def getReputationScanner (db : List (String × ScamEntryRaw)) (ds : DataSource)
    (address : String) (chainsOpt : ChainsOpt) : Except String Reputation :=
  if !(isValidAddress address) then .error "Invalid Ethereum address"
  else .ok (getReputation db ds address (resolveChains chainsOpt))

/-- One entry of the `checks` list of a transfer validation (free-text
`detail` omitted). -/
structure Check where
  name : String
  result : String
deriving DecidableEq, Repr

/-- Result of `validateTransfer` (formatted report and recommendation text
omitted). -/
structure Validation where
  recipient : String
  chain : String
  amount : Rat
  overallScore : Int
  level : String
  safe : Bool
  flags : List String
  scamMatch : Option ScamMatch
  profile : Option AddressProfile
  checks : List Check
deriving DecidableEq, Repr

/-- The two canonical burn addresses checked by `validateTransfer`. -/
def ZERO_ADDRESS : String := "0x0000000000000000000000000000000000000000"

/-- The dead address, as the lowercase literal compared against in the source. -/
def DEAD_ADDRESS : String := "0x000000000000000000000000000000000000dead"

/-- `validateTransfer`: sequential checks 1–4, final clamp, level and safety.
The `catch` around check 2/3 can never fire because `analyzeAddressProfile`
is total, so the burn-address check (check 3) always runs. -/
def validateTransfer (db : List (String × ScamEntryRaw)) (ds : DataSource)
    (recipient : String) (amount : Rat) (chainOpt : Option String) :
    Except String Validation :=
  if !(isValidAddress recipient) then .error "Invalid Ethereum address"
  else
    let chain := chainOpt.getD "base"
    let v0 : Validation :=
      ⟨jsToLower recipient, chain, amount, 0, "CLEAN", true, [], none, none, []⟩
    let v1 :=
      match checkScamDatabase db recipient with
      | some sm =>
        { v0 with
          scamMatch := some sm
          overallScore := sm.riskScore
          safe := false
          flags := v0.flags ++ ["KNOWN_" ++ jsToUpper sm.category]
          checks := v0.checks ++ [(⟨"Scam Database", "FAIL"⟩ : Check)] }
      | none => { v0 with checks := v0.checks ++ [(⟨"Scam Database", "PASS"⟩ : Check)] }
    let profile := analyzeAddressProfile ds recipient chain
    let v2 :=
      { v1 with
        profile := some profile
        overallScore := profile.riskFactors.foldl
          (fun (s : Int) (rf : RiskFactor) => min 100 (s + rf.impact)) v1.overallScore
        flags := v1.flags ++ profile.flags
        checks := v1.checks ++
          [(⟨"Address Profile", if 0 < profile.flags.length then "WARN" else "PASS"⟩ : Check)] }
    let v3 :=
      if jsToLower recipient = ZERO_ADDRESS ∨ jsToLower recipient = DEAD_ADDRESS then
        { v2 with
          overallScore := 100
          safe := false
          flags := v2.flags ++ ["BURN_ADDRESS"]
          checks := v2.checks ++ [(⟨"Burn Address", "FAIL"⟩ : Check)] }
      else v2
    let v4 :=
      if LARGE_TRANSFER_USDC ≤ amount then
        let va := { v3 with
          flags := v3.flags ++ ["LARGE_TRANSFER"]
          checks := v3.checks ++ [(⟨"Large Transfer", "WARN"⟩ : Check)] }
        let interactions := checkScamInteractions db ds recipient chain
        if 0 < interactions.length then
          { va with
            overallScore := min 100 (va.overallScore + 30)
            flags := va.flags ++ ["SCAM_INTERACTIONS"]
            safe := false
            checks := va.checks ++ [(⟨"Scam Interactions", "FAIL"⟩ : Check)] }
        else va
      else v3
    let score : Int := min 100 v4.overallScore
    let v5 := { v4 with overallScore := score, level := scoreToLevel score }
    .ok (if 70 ≤ score then { v5 with safe := false } else v5)

/-- The window predicate of the rapid-bridging burst count: `e` lies within
50 blocks at or after `d`. -/
def burstWindow (d e : CCTPDeposit) : Bool :=
  decide (d.blockNumber ≤ e.blockNumber ∧ e.blockNumber ≤ d.blockNumber + 50)

/-- Proof-side description of the two-pointer window start: the least index
`j` whose block lies within `BLOCKS_PER_HOUR` of block `i` (taking `j = i`
as fallback).  `velAdvance` is proved to compute exactly this on sorted
lists. -/
def fv (b : List Int) (i : Nat) : Nat :=
  Nat.find (⟨i, Or.inl le_rfl⟩ : ∃ j, i ≤ j ∨ b.getD i 0 - b.getD j 0 ≤ BLOCKS_PER_HOUR)

/-! ## Concrete inputs used by the witnesses and counterexamples -/

/-- A valid test address (40 hex digits). -/
def addrA : String := "0xaaaaaaaaaaaaaaaaaaaaaaaaaaaaaaaaaaaaaaaa"

/-- A second valid test address. -/
def addrB : String := "0xbbbbbbbbbbbbbbbbbbbbbbbbbbbbbbbbbbbbbbbb"

/-- A third valid test address. -/
def addrC : String := "0xcccccccccccccccccccccccccccccccccccccccc"

/-- A fourth valid test address. -/
def addrD : String := "0xdddddddddddddddddddddddddddddddddddddddd"

/-- The dead burn address in mixed case, as users commonly write it. -/
def deadMixed : String := "0x000000000000000000000000000000000000dEaD"

/-- A DataSource on which every call fails. -/
def dsFail : DataSource :=
  ⟨fun _ _ => .error "rpc", fun _ _ => .error "rpc", fun _ _ => .error "rpc",
   fun _ _ => .error "rpc", fun _ _ => .error "rpc", fun _ _ => .error "rpc"⟩

/-- Shorthand transfer constructor for test data. -/
def mkTx (b : Int) (f t : String) (amt : Rat) : Transfer := ⟨"0xtx", b, f, t, amt⟩

/-- Five round-trips of 1000 USDC between `addrA` and `addrB`
(spec §8 wash-trading positive example). -/
def tsWashPos : List Transfer :=
  [mkTx 1 addrA addrB 1000, mkTx 2 addrB addrA 1000,
   mkTx 3 addrA addrB 1000, mkTx 4 addrB addrA 1000,
   mkTx 5 addrA addrB 1000, mkTx 6 addrB addrA 1000,
   mkTx 7 addrA addrB 1000, mkTx 8 addrB addrA 1000,
   mkTx 9 addrA addrB 1000, mkTx 10 addrB addrA 1000]

/-- Three one-directional transfers of varying amounts to distinct
counterparties (spec §8 wash-trading negative example). -/
def tsWashNeg : List Transfer :=
  [mkTx 1 addrA addrB 100, mkTx 2 addrA addrC 200, mkTx 3 addrA addrD 300]

/-- One block with one qualifying receive and two qualifying matching sends:
two matched (received, sent) pairs in a single block. -/
def tsFlashPairs : List Transfer :=
  [mkTx 7 addrB addrA 50000, mkTx 7 addrA addrB 50000, mkTx 7 addrA addrC 50000]

/-- Same-block receive of 50 000 and send of 50 100 USDC
(spec §8 flash-loan positive example). -/
def tsFlashEx : List Transfer :=
  [mkTx 3 addrB addrA 50000, mkTx 3 addrA addrC 50100]

/-- 25 outgoing transfers spaced one block apart
(spec §8 high-velocity positive example). -/
def tsVelocity : List Transfer :=
  (List.range 25).map fun i => mkTx ((i : Int) + 1) addrA addrB 10

/-- Five CCTP deposits from one source chain within a 50-block window
(spec §8 rapid-bridging positive example). -/
def depsBurst : List CCTPDeposit :=
  [⟨"0xd", 100, "base"⟩, ⟨"0xd", 110, "base"⟩, ⟨"0xd", 120, "base"⟩,
   ⟨"0xd", 130, "base"⟩, ⟨"0xd", 140, "base"⟩]

/-- The finding produced for `tsWashPos` (confidence 65 > 50). -/
def washPosFinding : Finding := ⟨"WASH_TRADING", "high", 35, 65⟩

/-- Two sends and two receives between `addrA` and `addrB` with parametric
amounts: exactly 2 round-trips, but a Cartesian pair count of 4. -/
def tsTwoRound (a1 a2 b1 b2 : Rat) : List Transfer :=
  [mkTx 1 addrA addrB a1, mkTx 2 addrA addrB a2,
   mkTx 3 addrB addrA b1, mkTx 4 addrB addrA b2]

/-- A registry that lists `addrA` with severity `high` (weight 75). -/
def dbScam : List (String × ScamEntryRaw) :=
  [(addrA, ⟨"Test Scam", "phishing", "high", "details"⟩)]

/-- A DataSource whose profile calls all fail but which returns one large
transfer on `base`, so that a full scan of `addrA` picks up a
`LARGE_TRANSFERS` pattern on top of the scam-match score. -/
def dsLargeTx : DataSource :=
  { dsFail with getUSDCTransfers := fun chain _ =>
      if chain = "base" then .ok [mkTx 1 addrA addrB 50000] else .error "rpc" }

/-- A DataSource on which only the last profile call (`getBalance`) fails. -/
def dsLastFail : DataSource :=
  { dsFail with
    isContract := fun _ _ => .ok false
    getTransactionCount := fun _ _ => .ok 3
    getUSDCBalance := fun _ _ => .ok 0 }

/-- Whether all four DataSource queries issued by `analyzeAddressProfile`
succeed for the given chain and address. -/
def profileAllOk (ds : DataSource) (address chain : String) : Bool :=
  (ds.isContract chain address).isOk && (ds.getTransactionCount chain address).isOk &&
  (ds.getUSDCBalance chain address).isOk && (ds.getBalance chain address).isOk

/-- The validation record produced for the mixed-case dead address against an
all-failing DataSource and an empty registry (burn-address witness data). -/
def vDead : Validation :=
  ⟨"0x000000000000000000000000000000000000dead", "base", 0, 100, "CRITICAL", false,
   ["RPC_ERROR", "BURN_ADDRESS"], none,
   some ⟨"0x000000000000000000000000000000000000dead", "base", false, 0, 0, 0, 0, 0,
     ["RPC_ERROR"], [rpcErrorFactor]⟩,
   [⟨"Scam Database", "PASS"⟩, ⟨"Address Profile", "WARN"⟩, ⟨"Burn Address", "FAIL"⟩]⟩

/-- The expected result of `validateTransfer [] dsFail addrB 0 none`: the
profile query fails, leaving only the fixed RPC-error factor of impact 10. -/
def vB : Validation :=
  ⟨addrB, "base", 0, 10, "LOW", true, ["RPC_ERROR"], none,
   some ⟨addrB, "base", false, 0, 0, 0, 0, 0, ["RPC_ERROR"], [rpcErrorFactor]⟩,
   [⟨"Scam Database", "PASS"⟩, ⟨"Address Profile", "WARN"⟩]⟩

/-- The scam match produced by `dbScam` for `addrA` (severity high, weight 75). -/
def smA : ScamMatch := ⟨"Test Scam", "phishing", "high", "details", 75⟩

/-! ## Helper lemmas -/

theorem charToNat_ofNat_valid (n : Nat) (h : n.isValidChar) : (Char.ofNat n).toNat = n := by
  simp only [Char.ofNat, h, dite_true, Char.ofNatAux, Char.toNat, UInt32.toNat]
  simp [BitVec.toNat_ofNatLt]

theorem charToLower_toLower (c : Char) : c.toLower.toLower = c.toLower := by
  unfold Char.toLower
  by_cases h : c.toNat ≥ 65 ∧ c.toNat ≤ 90
  · have valid : (c.toNat + 32).isValidChar := Or.inl (by omega)
    rw [if_pos h, charToNat_ofNat_valid _ valid]
    have h2 : ¬(c.toNat + 32 ≥ 65 ∧ c.toNat + 32 ≤ 90) := by omega
    simp only [if_neg h2]
  · simp only [if_neg h]

theorem charToLower_toUpper (c : Char) : c.toUpper.toLower = c.toLower := by
  unfold Char.toUpper Char.toLower
  by_cases h : c.toNat ≥ 97 ∧ c.toNat ≤ 122
  · have valid : (c.toNat - 32).isValidChar := Or.inl (by omega)
    rw [if_pos h, charToNat_ofNat_valid _ valid]
    have h1 : c.toNat - 32 ≥ 65 ∧ c.toNat - 32 ≤ 90 := ⟨by omega, by omega⟩
    have h2 : ¬(c.toNat ≥ 65 ∧ c.toNat ≤ 90) := by omega
    have h3 : c.toNat - 32 + 32 = c.toNat := by omega
    simp only [if_pos h1, if_neg h2, h3, Char.ofNat_toNat]
  · simp only [if_neg h]

theorem jsToLower_eq_toLower (s : String) : jsToLower s = s.toLower := by
  rw [String.toLower, String.map_eq, jsToLower]

theorem jsToUpper_eq_toUpper (s : String) : jsToUpper s = s.toUpper := by
  rw [String.toUpper, String.map_eq, jsToUpper]

theorem jsToLower_jsToLower (s : String) : jsToLower (jsToLower s) = jsToLower s := by
  simp only [jsToLower, List.map_map]
  congr 1
  exact List.map_congr_left fun c _ => charToLower_toLower c

theorem jsToLower_jsToUpper (s : String) : jsToLower (jsToUpper s) = jsToLower s := by
  simp only [jsToLower, jsToUpper, List.map_map]
  congr 1
  exact List.map_congr_left fun c _ => charToLower_toUpper c

theorem severityWeight_bounds (s : String) :
    0 ≤ severityWeight s ∧ severityWeight s ≤ 100 := by
  unfold severityWeight
  split_ifs <;> omega

theorem scoreToLevel_eq_bandOf (s : Int) (h0 : 0 ≤ s) (h1 : s ≤ 100) :
    scoreToLevel s = bandOf s := by
  interval_cases s <;> decide

/-! ## Claim theorems -/

/-- Claim C9: scam-registry lookup is case-insensitive — for every raw
registry and every address, looking up the lowercase form and the uppercase
form of the address yield the same result (both `none` when unregistered). -/
theorem scamLookup_case_insensitive (raw : List (String × ScamEntryRaw)) (a : String) :
    checkScamDatabase (normalizeDb raw) (jsToLower a) =
      checkScamDatabase (normalizeDb raw) (jsToUpper a) := by
  unfold checkScamDatabase
  rw [jsToLower_jsToLower, jsToLower_jsToUpper]

/-- Claim C8: a DataSource failure during profile analysis never escapes —
`analyzeAddressProfile` is total (it returns an `AddressProfile`, not an
`Except`), the returned profile carries the `RPC_ERROR` flag exactly when some
DataSource query failed, and in that case it also carries the dedicated risk
factor of fixed impact 10, so the degraded profile is never an unmarked
partial object. -/
theorem profile_degrades_on_rpc_error (ds : DataSource) (address chain : String) :
    ("RPC_ERROR" ∈ (analyzeAddressProfile ds address chain).flags ↔
      profileAllOk ds address chain = false) ∧
    (profileAllOk ds address chain = false →
      rpcErrorFactor ∈ (analyzeAddressProfile ds address chain).riskFactors) ∧
    rpcErrorFactor.impact = 10 := by
  refine ⟨?_, ?_, rfl⟩ <;>
  · unfold analyzeAddressProfile profileAllOk
    rcases ds.isContract chain address with e1 | isC <;>
      rcases ds.getTransactionCount chain address with e2 | tc <;>
      rcases ds.getUSDCBalance chain address with e3 | rawB <;>
      rcases ds.getBalance chain address with e4 | ethB <;>
      simp [degradeProfile, Except.isOk, Except.toBool] <;>
      (try split_ifs) <;> simp_all

/-- Witness for claim C8: with a DataSource whose `getBalance` call fails,
the profile carries the `RPC_ERROR` flag and the impact-10 risk factor. -/
theorem profile_degrades_on_rpc_error_witness :
    "RPC_ERROR" ∈ (analyzeAddressProfile dsLastFail addrB "base").flags ∧
    rpcErrorFactor ∈ (analyzeAddressProfile dsLastFail addrB "base").riskFactors :=
  ⟨(profile_degrades_on_rpc_error dsLastFail addrB "base").1.mpr (by decide),
   (profile_degrades_on_rpc_error dsLastFail addrB "base").2.1 (by decide)⟩

/-- Claim C3: for every amount, chain and DataSource behavior (including
DataSource failures during profile analysis), validating a transfer to the
zero or dead address in any letter case succeeds and yields `safe = false`, a
score forced to 100, and the `BURN_ADDRESS` flag. -/
theorem burn_address_validation (db : List (String × ScamEntryRaw)) (ds : DataSource)
    (recipient : String) (amount : Rat) (chainOpt : Option String)
    (hvalid : isValidAddress recipient = true)
    (hburn : jsToLower recipient = ZERO_ADDRESS ∨ jsToLower recipient = DEAD_ADDRESS) :
    (validateTransfer db ds recipient amount chainOpt).isOk = true ∧
    ∀ v, validateTransfer db ds recipient amount chainOpt = Except.ok v →
      v.safe = false ∧ v.overallScore = 100 ∧ "BURN_ADDRESS" ∈ v.flags := by
  unfold validateTransfer
  simp only [hvalid, Bool.not_true, Bool.false_eq_true, if_false, if_pos hburn]
  rcases h : checkScamDatabase db recipient with _ | sm <;>
    simp only [h] <;>
    split_ifs <;>
    refine ⟨rfl, fun v hv => ?_⟩ <;>
    (injection hv with hv2) <;> subst hv2 <;>
    refine ⟨rfl, by norm_num, by simp⟩

/-- Witness for claim C3: the mixed-case dead address, amount 0, default
chain, all-failing DataSource, empty registry. -/
theorem burn_address_validation_witness :
    vDead.safe = false ∧ vDead.overallScore = 100 ∧ "BURN_ADDRESS" ∈ vDead.flags :=
  (burn_address_validation [] dsFail deadMixed 0 none (by decide)
    (Or.inr (by decide))).2 vDead rfl

theorem washSent_ne_nil_mem_keys (addr : String) (ts : List Transfer) (cp : String)
    (hne : washSent addr ts cp ≠ []) : cp ∈ washKeys addr ts := by
  obtain ⟨tx, htx⟩ := List.exists_mem_of_ne_nil _ hne
  rw [washSent, List.mem_filter] at htx
  obtain ⟨htxmem, hcond⟩ := htx
  simp only [Bool.and_eq_true, decide_eq_true_eq] at hcond
  rw [washKeys, List.mem_dedup]
  exact List.mem_map.mpr ⟨tx, htxmem, hcond.2⟩

/-- Claim C4: the wash-trading detector emits a finding exactly when some
counterparty has transfers in both directions and at least 3 amount-matched
(sent, received) pairs within 1% of the sent amount; the finding has severity
`high`, riskImpact 35 and confidence `min 95 (50 + 15·suspiciousCount)`.
Five 1000-USDC round-trips between two addresses trigger it with confidence
65 > 50; three one-directional transfers of varying amounts to distinct
counterparties yield no finding. -/
theorem wash_trading_detector (address : String) (ts : List Transfer) :
    ((detectWashTrading address ts).isSome ↔
      ∃ cp, washSent (jsToLower address) ts cp ≠ [] ∧
        washReceived (jsToLower address) ts cp ≠ [] ∧
        WASH_TRADE_MIN_CYCLES ≤ washMatches (jsToLower address) ts cp) ∧
    (∀ f, detectWashTrading address ts = some f →
      f = ⟨"WASH_TRADING", "high", 35,
        min 95 (50 + ((washSuspicious (jsToLower address) ts).length : Rat) * 15)⟩) ∧
    detectWashTrading addrA tsWashPos = some washPosFinding ∧
    (50 : Rat) < washPosFinding.confidence ∧
    detectWashTrading addrA tsWashNeg = none := by
  refine ⟨⟨?_, ?_⟩, ?_, by with_unfolding_all decide, by with_unfolding_all decide,
    by with_unfolding_all decide⟩
  · intro hsome
    simp only [detectWashTrading] at hsome
    by_cases hlen : (washSuspicious (jsToLower address) ts).length = 0
    · rw [if_pos hlen] at hsome
      simp at hsome
    · have hne : washSuspicious (jsToLower address) ts ≠ [] := by
        simpa [List.length_eq_zero] using hlen
      obtain ⟨cp, hcp⟩ := List.exists_mem_of_ne_nil _ hne
      rw [washSuspicious, List.mem_filter] at hcp
      simp only [Bool.and_eq_true, Bool.not_eq_true', decide_eq_false_iff_not,
        decide_eq_true_eq] at hcp
      exact ⟨cp, hcp.2.1.1, hcp.2.1.2, hcp.2.2⟩
  · rintro ⟨cp, h1, h2, h3⟩
    have hmem : cp ∈ washSuspicious (jsToLower address) ts := by
      rw [washSuspicious, List.mem_filter]
      refine ⟨washSent_ne_nil_mem_keys _ _ _ h1, ?_⟩
      simp only [Bool.and_eq_true, Bool.not_eq_true', decide_eq_false_iff_not,
        decide_eq_true_eq]
      exact ⟨⟨h1, h2⟩, h3⟩
    simp only [detectWashTrading]
    rw [if_neg (by simp [List.length_eq_zero]; exact List.ne_nil_of_mem hmem)]
    simp
  · intro f hf
    simp only [detectWashTrading] at hf
    split_ifs at hf with h
    exact (Option.some.injEq _ _ ▸ hf : _ = f).symm

/-- Witness for claim C4: the finding of the five-round-trip example has
exactly the claimed shape, with one suspicious counterparty. -/
theorem wash_trading_detector_witness :
    washPosFinding = ⟨"WASH_TRADING", "high", 35,
      min 95 (50 + ((washSuspicious (jsToLower addrA) tsWashPos).length : Rat) * 15)⟩ :=
  (wash_trading_detector addrA tsWashPos).2.1 washPosFinding
    (wash_trading_detector addrA tsWashPos).2.2.1

/-- Claim C10: the wash-trading pair count is taken over the full Cartesian
product of sent and received transfers, so a counterparty with exactly 2 sent
and 2 received transfers whose amounts all match within 1% of the sent amount
has a pair count of 4 — triggering `WASH_TRADING` although only 2 round-trips
occurred. -/
theorem wash_cartesian_pairs (a1 a2 b1 b2 : Rat)
    (h11 : |a1 - b1| ≤ a1 * WASH_TRADE_AMOUNT_TOLERANCE)
    (h12 : |a1 - b2| ≤ a1 * WASH_TRADE_AMOUNT_TOLERANCE)
    (h21 : |a2 - b1| ≤ a2 * WASH_TRADE_AMOUNT_TOLERANCE)
    (h22 : |a2 - b2| ≤ a2 * WASH_TRADE_AMOUNT_TOLERANCE) :
    washMatches (jsToLower addrA) (tsTwoRound a1 a2 b1 b2) (jsToLower addrB) = 4 ∧
    (detectWashTrading addrA (tsTwoRound a1 a2 b1 b2)).isSome = true := by
  have hsent : washSent (jsToLower addrA) (tsTwoRound a1 a2 b1 b2) (jsToLower addrB) =
      [mkTx 1 addrA addrB a1, mkTx 2 addrA addrB a2] := rfl
  have hrecv : washReceived (jsToLower addrA) (tsTwoRound a1 a2 b1 b2) (jsToLower addrB) =
      [mkTx 3 addrB addrA b1, mkTx 4 addrB addrA b2] := rfl
  have hm : washMatches (jsToLower addrA) (tsTwoRound a1 a2 b1 b2) (jsToLower addrB) = 4 := by
    rw [washMatches, hsent, hrecv]
    simp only [List.map_cons, List.map_nil, List.countP_cons, List.countP_nil, mkTx]
    simp [h11, h12, h21, h22]
  refine ⟨hm, ?_⟩
  have hkeys : washKeys (jsToLower addrA) (tsTwoRound a1 a2 b1 b2) = [jsToLower addrB] := rfl
  simp only [detectWashTrading, washSuspicious]
  rw [hkeys, List.filter_cons, List.filter_nil, hsent, hrecv, hm]
  norm_num [WASH_TRADE_MIN_CYCLES]
  exact ⟨List.cons_ne_nil _ _, List.cons_ne_nil _ _⟩

/-- Witness for claim C10: all four amounts equal to 1000 USDC. -/
theorem wash_cartesian_pairs_witness :
    washMatches (jsToLower addrA) (tsTwoRound 1000 1000 1000 1000) (jsToLower addrB) = 4 ∧
    (detectWashTrading addrA (tsTwoRound 1000 1000 1000 1000)).isSome = true :=
  wash_cartesian_pairs 1000 1000 1000 1000 (by with_unfolding_all decide)
    (by with_unfolding_all decide) (by with_unfolding_all decide)
    (by with_unfolding_all decide)

theorem natSumMap_pos {α : Type} (l : List α) (f : α → Nat) :
    0 < (l.map f).sum ↔ ∃ a ∈ l, 0 < f a := by
  rw [Nat.pos_iff_ne_zero, Ne, List.sum_eq_zero_iff]
  simp [Nat.pos_iff_ne_zero]

theorem flashPairsInBlock_pos_iff (addr : String) (txs : List Transfer) :
    0 < flashPairsInBlock addr txs ↔
      2 ≤ (flashLargeTxs txs).length ∧
      ∃ recv ∈ flashReceivedTxs addr txs, ∃ send ∈ flashSentTxs addr txs,
        |recv.amountUSDC - send.amountUSDC| ≤ recv.amountUSDC * (5/100 : Rat) := by
  unfold flashPairsInBlock
  split_ifs with h1 h2
  · rw [natSumMap_pos]
    simp only [List.countP_pos_iff, decide_eq_true_eq]
    tauto
  · simp only [lt_irrefl 0, false_iff, not_and]
    intro _
    rintro ⟨recv, hr, send, hs, _⟩
    exact h2 ⟨List.length_pos_of_mem hr, List.length_pos_of_mem hs⟩
  · simp only [lt_irrefl 0, false_iff, not_and]
    intro h
    exact absurd h h1

theorem blockTxs_mem_keys (ts : List Transfer) (b : Int)
    (hne : blockTxs ts b ≠ []) : b ∈ blockKeys ts := by
  obtain ⟨tx, htx⟩ := List.exists_mem_of_ne_nil _ hne
  rw [blockTxs, List.mem_filter] at htx
  rw [blockKeys, List.mem_dedup]
  exact List.mem_map.mpr ⟨tx, htx.1, by simpa using htx.2⟩

/-- Counterexample to claim C5: one block with a single 50 000-USDC receive
and two matching 50 000-USDC sends yields two matched (received, sent) pairs;
the matched block count is 1, yet the confidence is `min 90 (40 + 20·2) = 80`,
not the `min 90 (40 + 20·1) = 60` derived from the matched block count the
claim states. -/
theorem flash_confidence_counterexample :
    detectFlashLoanPatterns addrA tsFlashPairs =
      some ⟨"FLASH_LOAN_PATTERN", "high", 40, 80⟩ ∧
    (flashMatchedBlocks (jsToLower addrA) tsFlashPairs).length = 1 ∧
    (80 : Rat) ≠ min 90 (40 + 20 * 1) :=
  ⟨by with_unfolding_all decide, by with_unfolding_all decide, by norm_num⟩

/-- Claim C5 as amended: the flash-loan detector emits exactly when some
block holds at least two transfers of ≥ 10 000 USDC among which a received
and a sent one match within 5% of the received amount; severity `high`,
riskImpact 40, and confidence `min 90 (40 + 20·pairCount)` where `pairCount`
counts matched (received, sent) pairs over all blocks — not matched blocks.
The same-block 50 000-receive / 50 100-send example triggers the finding. -/
theorem flash_loan_detector (address : String) (ts : List Transfer) :
    ((detectFlashLoanPatterns address ts).isSome ↔
      ∃ b, 2 ≤ (flashLargeTxs (blockTxs ts b)).length ∧
        ∃ recv ∈ flashReceivedTxs (jsToLower address) (blockTxs ts b),
          ∃ send ∈ flashSentTxs (jsToLower address) (blockTxs ts b),
            |recv.amountUSDC - send.amountUSDC| ≤ recv.amountUSDC * (5/100 : Rat)) ∧
    (∀ f, detectFlashLoanPatterns address ts = some f →
      f = ⟨"FLASH_LOAN_PATTERN", "high", 40,
        min 90 (40 + (flashPairCount (jsToLower address) ts : Rat) * 20)⟩) ∧
    detectFlashLoanPatterns addrA tsFlashEx = some ⟨"FLASH_LOAN_PATTERN", "high", 40, 60⟩ := by
  refine ⟨⟨?_, ?_⟩, ?_, by with_unfolding_all decide⟩
  · intro hsome
    simp only [detectFlashLoanPatterns] at hsome
    by_cases h : flashPairCount (jsToLower address) ts = 0
    · rw [if_pos h] at hsome
      simp at hsome
    · have hpos : 0 < flashPairCount (jsToLower address) ts := Nat.pos_of_ne_zero h
      rw [flashPairCount, natSumMap_pos] at hpos
      obtain ⟨b, _, hb⟩ := hpos
      exact ⟨b, (flashPairsInBlock_pos_iff _ _).mp hb⟩
  · rintro ⟨b, hb⟩
    have hpos : 0 < flashPairsInBlock (jsToLower address) (blockTxs ts b) :=
      (flashPairsInBlock_pos_iff _ _).mpr hb
    have hbk : b ∈ blockKeys ts := by
      apply blockTxs_mem_keys
      intro hnil
      have h2 := hb.1
      rw [hnil] at h2
      simp [flashLargeTxs] at h2
    have hne : flashPairCount (jsToLower address) ts ≠ 0 := by
      rw [flashPairCount]
      intro h0
      rw [List.sum_eq_zero_iff] at h0
      have := h0 _ (List.mem_map.mpr ⟨b, hbk, rfl⟩)
      omega
    simp [detectFlashLoanPatterns, hne]
  · intro f hf
    simp only [detectFlashLoanPatterns] at hf
    split_ifs at hf with h
    exact (Option.some.injEq _ _ ▸ hf : _ = f).symm

/-- Witness for the amended claim C5: the spec example's finding has the
claimed shape (one matched pair, confidence 60). -/
theorem flash_loan_detector_witness :
    (⟨"FLASH_LOAN_PATTERN", "high", 40, 60⟩ : Finding) = ⟨"FLASH_LOAN_PATTERN", "high", 40,
      min 90 (40 + (flashPairCount (jsToLower addrA) tsFlashEx : Rat) * 20)⟩ :=
  (flash_loan_detector addrA tsFlashEx).2.1 _ (flash_loan_detector addrA tsFlashEx).2.2

theorem le_foldrMax {l : List Nat} {a : Nat} (h : a ∈ l) : a ≤ l.foldr max 0 := by
  induction l with
  | nil => cases h
  | cons x t ih =>
    rcases List.mem_cons.mp h with rfl | h2
    · exact le_max_left _ _
    · exact le_trans (ih h2) (le_max_right _ _)

theorem foldrMax_le {l : List Nat} {c : Nat} (h : ∀ a ∈ l, a ≤ c) : l.foldr max 0 ≤ c := by
  induction l with
  | nil => exact Nat.zero_le c
  | cons x t ih =>
    exact max_le (h x (List.mem_cons_self _ _)) (ih fun a ha => h a (List.mem_cons_of_mem _ ha))

theorem takeWhile_eq_filter_of_pairwise {α : Type} {p : α → Bool} {l : List α}
    (h : l.Pairwise fun a b => p b = true → p a = true) :
    l.takeWhile p = l.filter p := by
  induction l with
  | nil => rfl
  | cons x t ih =>
    rcases List.pairwise_cons.mp h with ⟨hx, ht⟩
    by_cases hp : p x = true
    · rw [List.takeWhile_cons_of_pos hp, List.filter_cons_of_pos hp, ih ht]
    · rw [List.takeWhile_cons_of_neg hp, List.filter_cons_of_neg hp]
      symm
      rw [List.filter_eq_nil_iff]
      intro a ha
      exact fun hpa => hp (hx a ha hpa)




theorem burstScan_eq (s : List CCTPDeposit)
    (hs : s.Pairwise fun a b => a.blockNumber ≤ b.blockNumber) :
    burstScan s = (s.map fun d => s.countP (burstWindow d)).foldr max 0 := by
  induction s with
  | nil => rfl
  | cons d rest ih =>
    obtain ⟨hd, ht⟩ := List.pairwise_cons.mp hs
    have htw : rest.takeWhile (fun e => decide (e.blockNumber - d.blockNumber ≤ 50)) =
        rest.filter (fun e => decide (e.blockNumber - d.blockNumber ≤ 50)) :=
      takeWhile_eq_filter_of_pairwise (ht.imp (by
        intro a b hab
        simp only [decide_eq_true_eq]
        omega))
    have hcong : rest.countP (fun e => decide (e.blockNumber - d.blockNumber ≤ 50)) =
        rest.countP (burstWindow d) := by
      apply List.countP_congr
      intro e he
      have := hd e he
      simp only [burstWindow, decide_eq_true_eq]
      constructor <;> (intro hh; first | omega | (exact (by omega)))
    have hbwd : burstWindow d d = true := by
      simp only [burstWindow, decide_eq_true_eq]
      omega
    have hK : (d :: rest).countP (burstWindow d) =
        1 + (rest.takeWhile fun e => decide (e.blockNumber - d.blockNumber ≤ 50)).length := by
      rw [List.countP_cons, if_pos hbwd, htw, ← hcong, List.countP_eq_length_filter]
      omega
    simp only [burstScan, List.map_cons, List.foldr_cons]
    rw [← hK, ih ht]
    have hle1 : (rest.map fun e => rest.countP (burstWindow e)).foldr max 0 ≤
        (rest.map fun e => (d :: rest).countP (burstWindow e)).foldr max 0 := by
      apply foldrMax_le
      intro a ha
      obtain ⟨e, he, rfl⟩ := List.mem_map.mp ha
      calc rest.countP (burstWindow e) ≤ (d :: rest).countP (burstWindow e) := by
            rw [List.countP_cons]
            omega
        _ ≤ _ := le_foldrMax (List.mem_map.mpr ⟨e, he, rfl⟩)
    have hle2 : (rest.map fun e => (d :: rest).countP (burstWindow e)).foldr max 0 ≤
        max ((d :: rest).countP (burstWindow d))
          ((rest.map fun e => rest.countP (burstWindow e)).foldr max 0) := by
      apply foldrMax_le
      intro a ha
      obtain ⟨e, he, rfl⟩ := List.mem_map.mp ha
      by_cases hw : burstWindow e d = true
      · have hblock : e.blockNumber = d.blockNumber := by
          have h1 := hd e he
          simp only [burstWindow, decide_eq_true_eq] at hw
          omega
        have hpt : ∀ x ∈ (d :: rest), burstWindow e x = true ↔ burstWindow d x = true := by
          intro x _
          simp only [burstWindow, hblock]
        rw [List.countP_congr hpt]
        exact le_max_left _ _
      · have hdrop : (d :: rest).countP (burstWindow e) = rest.countP (burstWindow e) := by
          rw [List.countP_cons]
          simp [hw]
        rw [hdrop]
        exact le_trans (le_foldrMax (List.mem_map.mpr ⟨e, he, rfl⟩)) (le_max_right _ _)
    exact le_antisymm (max_le_max le_rfl hle1) (max_le (le_max_left _ _) hle2)


theorem burstSpecAux_perm (s l : List CCTPDeposit) (h : s.Perm l) :
    (s.map fun d => s.countP (burstWindow d)).foldr max 0 =
    (l.map fun d => l.countP (burstWindow d)).foldr max 0 := by
  apply le_antisymm <;>
    (apply foldrMax_le
     intro a ha
     obtain ⟨e, he, rfl⟩ := List.mem_map.mp ha)
  · rw [h.countP_eq]
    exact le_foldrMax (List.mem_map.mpr ⟨e, h.mem_iff.mp he, rfl⟩)
  · rw [← h.countP_eq]
    exact le_foldrMax (List.mem_map.mpr ⟨e, h.mem_iff.mpr he, rfl⟩)

theorem maxBurstChain_eq (l : List CCTPDeposit) :
    maxBurstChain l = (l.map fun d => l.countP (burstWindow d)).foldr max 0 := by
  rw [maxBurstChain]
  have hperm := List.mergeSort_perm l fun a b => decide (a.blockNumber ≤ b.blockNumber)
  have hsorted := @List.sorted_mergeSort CCTPDeposit
    (fun a b => decide (a.blockNumber ≤ b.blockNumber))
    (by intro a b c; simp only [decide_eq_true_eq]; omega)
    (by intro a b; simp only [Bool.or_eq_true, decide_eq_true_eq]; omega) l
  have hpw : (l.mergeSort fun a b => decide (a.blockNumber ≤ b.blockNumber)).Pairwise
      fun a b => a.blockNumber ≤ b.blockNumber :=
    hsorted.imp (by intro a b hab; simpa using hab)
  rw [burstScan_eq _ hpw]
  exact burstSpecAux_perm _ l hperm

theorem maxBursts_eq_burstSpec (deps : List CCTPDeposit) :
    maxBursts deps = burstSpec deps := by
  unfold maxBursts burstSpec
  apply le_antisymm
  · apply foldrMax_le
    intro a ha
    obtain ⟨c, hc, rfl⟩ := List.mem_map.mp ha
    rw [maxBurstChain_eq]
    apply foldrMax_le
    intro a2 ha2
    obtain ⟨e, he, rfl⟩ := List.mem_map.mp ha2
    have hef := List.mem_filter.mp he
    have hchain : e.sourceChain = c := by simpa using hef.2
    have hcc : (deps.filter fun d => decide (d.sourceChain = c)).countP (burstWindow e) =
        deps.countP fun x => decide (x.sourceChain = e.sourceChain ∧
          e.blockNumber ≤ x.blockNumber ∧ x.blockNumber ≤ e.blockNumber + 50) := by
      rw [List.countP_filter]
      apply List.countP_congr
      intro x _
      simp only [burstWindow, Bool.and_eq_true, decide_eq_true_eq, hchain]
      tauto
    rw [hcc]
    exact le_foldrMax (List.mem_map.mpr ⟨e, hef.1, rfl⟩)
  · apply foldrMax_le
    intro a ha
    obtain ⟨e, he, rfl⟩ := List.mem_map.mp ha
    have hcc : deps.countP (fun x => decide (x.sourceChain = e.sourceChain ∧
          e.blockNumber ≤ x.blockNumber ∧ x.blockNumber ≤ e.blockNumber + 50)) =
        (deps.filter fun d => decide (d.sourceChain = e.sourceChain)).countP (burstWindow e) := by
      rw [List.countP_filter]
      apply List.countP_congr
      intro x _
      simp only [burstWindow, Bool.and_eq_true, decide_eq_true_eq]
      tauto
    rw [hcc]
    have hmem : e ∈ deps.filter fun d => decide (d.sourceChain = e.sourceChain) :=
      List.mem_filter.mpr ⟨he, by simp⟩
    calc (deps.filter fun d => decide (d.sourceChain = e.sourceChain)).countP (burstWindow e) ≤
          maxBurstChain (deps.filter fun d => decide (d.sourceChain = e.sourceChain)) := by
            rw [maxBurstChain_eq]
            exact le_foldrMax (List.mem_map.mpr ⟨e, hmem, rfl⟩)
      _ ≤ _ := le_foldrMax (List.mem_map.mpr ⟨e.sourceChain, by
            rw [depositChains, List.mem_dedup]
            exact List.mem_map.mpr ⟨e, he, rfl⟩, rfl⟩)


/-- Claim C7: the rapid-bridging detector emits a finding exactly when some
source chain has at least 3 deposits within a 50-block window; the finding
has riskImpact `min 35 (15 + 5·burst)` and severity `high` iff the burst is
at least 5.  Five same-chain deposits inside a 50-block window trigger it. -/
theorem rapid_bridging_detector (deps : List CCTPDeposit) :
    ((detectRapidBridging deps).isSome ↔ 3 ≤ burstSpec deps) ∧
    (∀ f, detectRapidBridging deps = some f →
      f = ⟨"RAPID_BRIDGING", if 5 ≤ burstSpec deps then "high" else "medium",
        min 35 (15 + (burstSpec deps : Int) * 5), min 85 (40 + (burstSpec deps : Rat) * 10)⟩) ∧
    detectRapidBridging depsBurst = some ⟨"RAPID_BRIDGING", "high", 35, 85⟩ ∧
    burstSpec depsBurst = 5 := by
  have hm := maxBursts_eq_burstSpec deps
  have hbound : burstSpec deps ≤ deps.length := by
    apply foldrMax_le
    intro a ha
    obtain ⟨e, he, rfl⟩ := List.mem_map.mp ha
    exact List.countP_le_length _
  refine ⟨⟨?_, ?_⟩, ?_, by with_unfolding_all decide, by with_unfolding_all decide⟩
  · intro h
    simp only [detectRapidBridging] at h
    split_ifs at h with h1 h2 h3
    · simp at h
    · simp at h
    · omega
    · omega
  · intro h
    simp only [detectRapidBridging]
    rw [if_neg (by omega), if_neg (by omega)]
    simp
  · intro f hf
    simp only [detectRapidBridging] at hf
    split_ifs at hf with h1 h2 h3
    · rw [hm] at hf h3
      rw [if_pos h3]
      exact (Option.some.injEq _ _ ▸ hf : _ = f).symm
    · rw [hm] at hf h3
      rw [if_neg h3]
      exact (Option.some.injEq _ _ ▸ hf : _ = f).symm

/-- Witness for claim C7: the five-deposit burst produces exactly the
claimed finding shape (burst 5, severity high, riskImpact 35). -/
theorem rapid_bridging_detector_witness :
    (⟨"RAPID_BRIDGING", "high", 35, 85⟩ : Finding) = ⟨"RAPID_BRIDGING",
      if 5 ≤ burstSpec depsBurst then "high" else "medium",
      min 35 (15 + (burstSpec depsBurst : Int) * 5),
      min 85 (40 + (burstSpec depsBurst : Rat) * 10)⟩ :=
  (rapid_bridging_detector depsBurst).2.1 _ (rapid_bridging_detector depsBurst).2.2.1



theorem fv_le (b : List Int) (i : Nat) : fv b i ≤ i :=
  Nat.find_le (Or.inl le_rfl)

theorem fv_ok (b : List Int) (i : Nat) :
    b.getD i 0 - b.getD (fv b i) 0 ≤ BLOCKS_PER_HOUR := by
  have h : i ≤ fv b i ∨ b.getD i 0 - b.getD (fv b i) 0 ≤ BLOCKS_PER_HOUR :=
    Nat.find_spec (⟨i, Or.inl le_rfl⟩ :
      ∃ j, i ≤ j ∨ b.getD i 0 - b.getD j 0 ≤ BLOCKS_PER_HOUR)
  rcases h with h | h
  · have : fv b i = i := le_antisymm (fv_le b i) h
    rw [this]
    simp [BLOCKS_PER_HOUR]
  · exact h

theorem fv_min (b : List Int) (i j : Nat) (hj : j < fv b i) :
    j < i ∧ BLOCKS_PER_HOUR < b.getD i 0 - b.getD j 0 := by
  have h : ¬(i ≤ j ∨ b.getD i 0 - b.getD j 0 ≤ BLOCKS_PER_HOUR) :=
    Nat.find_min (⟨i, Or.inl le_rfl⟩ :
      ∃ j, i ≤ j ∨ b.getD i 0 - b.getD j 0 ≤ BLOCKS_PER_HOUR) hj
  push_neg at h
  exact ⟨by omega, by omega⟩

theorem sorted_getD_mono {b : List Int} (hs : b.Pairwise (· ≤ ·)) {j k : Nat}
    (hjk : j ≤ k) (hk : k < b.length) : b.getD j 0 ≤ b.getD k 0 := by
  rcases Nat.lt_or_ge j k with h | h
  · have hjlen : j < b.length := by omega
    have := List.pairwise_iff_getElem.mp hs j k hjlen hk h
    rwa [List.getD_eq_getElem _ _ hjlen, List.getD_eq_getElem _ _ hk]
  · have : j = k := by omega
    rw [this]

theorem fv_mono {b : List Int} (hs : b.Pairwise (· ≤ ·)) (i i' : Nat)
    (h : i ≤ i') (hi' : i' < b.length) : fv b i ≤ fv b i' := by
  by_contra hc
  push_neg at hc
  have hspec : i' ≤ fv b i' ∨ b.getD i' 0 - b.getD (fv b i') 0 ≤ BLOCKS_PER_HOUR :=
    Nat.find_spec (⟨i', Or.inl le_rfl⟩ :
      ∃ j, i' ≤ j ∨ b.getD i' 0 - b.getD j 0 ≤ BLOCKS_PER_HOUR)
  have hjle : fv b i' ≤ i' := fv_le b i'
  obtain ⟨hji, hgt⟩ := fv_min b i (fv b i') hc
  have hbi : b.getD i 0 ≤ b.getD i' 0 := sorted_getD_mono hs h hi'
  rcases hspec with h1 | h2
  · omega
  · omega

theorem velAdvance_eq_fv (b : List Int) (i : Nat) :
    ∀ fuel ws, ws ≤ fv b i → fv b i - ws ≤ fuel → velAdvance b i fuel ws = fv b i := by
  intro fuel
  induction fuel with
  | zero =>
    intro ws h1 h2
    have : ws = fv b i := by omega
    rw [velAdvance, this]
  | succ n ih =>
    intro ws h1 h2
    rcases Nat.lt_or_ge ws (fv b i) with hlt | hge
    · obtain ⟨hwi, hgt⟩ := fv_min b i ws hlt
      rw [velAdvance, if_pos ⟨hwi, hgt⟩]
      exact ih (ws + 1) (by omega) (by omega)
    · have heq : ws = fv b i := by omega
      have hok := fv_ok b i
      rw [velAdvance, if_neg (by rw [heq]; intro hcon; omega)]
      exact heq


theorem foldrMax_init (l : List Nat) (a : Nat) : l.foldr max a = max a (l.foldr max 0) := by
  induction l with
  | nil => simp
  | cons x t ih =>
    simp only [List.foldr_cons, ih]
    omega

theorem velLoop_eq (b : List Int) (hs : b.Pairwise (· ≤ ·)) :
    ∀ k, k ≤ b.length → (List.range k).foldl (velStep b) (0, 0) =
      ((if k = 0 then 0 else fv b (k - 1)),
       ((List.range k).map fun i => i - fv b i + 1).foldr max 0) := by
  intro k
  induction k with
  | zero => intro _; simp
  | succ n ih =>
    intro hk
    rw [List.range_succ, List.foldl_append, ih (by omega)]
    simp only [List.foldl_cons, List.foldl_nil]
    have hn : n < b.length := by omega
    have hst1 : (if n = 0 then 0 else fv b (n - 1)) ≤ fv b n := by
      split_ifs with h
      · exact Nat.zero_le _
      · exact fv_mono hs (n - 1) n (by omega) hn
    have hfvn : fv b n ≤ n := fv_le b n
    have hadv : velAdvance b n (n - if n = 0 then 0 else fv b (n - 1))
        (if n = 0 then 0 else fv b (n - 1)) = fv b n :=
      velAdvance_eq_fv b n _ _ hst1 (by omega)
    simp only [velStep, hadv]
    rw [List.map_append, List.foldr_append]
    simp only [List.map_cons, List.map_nil, List.foldr_cons, List.foldr_nil]
    rw [if_neg (by omega : ¬(n + 1 = 0)), Nat.add_sub_cancel, Prod.ext_iff]
    have hfi := foldrMax_init ((List.range n).map fun i => i - fv b i + 1)
      ((n - fv b n + 1) ⊔ 0)
    exact ⟨rfl, by omega⟩


theorem maxInWindow_eq (b : List Int) (hs : b.Pairwise (· ≤ ·)) :
    maxInWindow b = ((List.range b.length).map fun i => i - fv b i + 1).foldr max 0 := by
  rw [maxInWindow, velLoop_eq b hs b.length le_rfl]

theorem count_take_eq (b : List Int) (hs : b.Pairwise (· ≤ ·)) (i : Nat) (hi : i < b.length) :
    (b.take (i + 1)).countP
      (fun x => decide (b.getD i 0 - BLOCKS_PER_HOUR ≤ x ∧ x ≤ b.getD i 0)) =
      i + 1 - fv b i := by
  have hm_le : fv b i ≤ i := fv_le b i
  have hsplit : b.take (i + 1) = b.take (fv b i) ++ (b.take (i + 1)).drop (fv b i) := by
    conv_lhs => rw [← List.take_append_drop (fv b i) (b.take (i + 1))]
    rw [List.take_take, min_eq_left (by omega)]
  rw [hsplit, List.countP_append]
  have hzero : (b.take (fv b i)).countP
      (fun x => decide (b.getD i 0 - BLOCKS_PER_HOUR ≤ x ∧ x ≤ b.getD i 0)) = 0 := by
    rw [List.countP_eq_zero]
    intro x hx
    obtain ⟨j, hj, hxj⟩ := List.mem_iff_getElem.mp hx
    have hjlt : j < fv b i := by
      have := hj
      simp only [List.length_take] at this
      omega
    obtain ⟨hji, hgt⟩ := fv_min b i j hjlt
    have hxval : x = b.getD j 0 := by
      rw [← hxj, List.getElem_take, List.getD_eq_getElem _ _ (by omega)]
    simp only [decide_eq_true_eq, not_and]
    intro hcon
    omega
  have hfull : ((b.take (i + 1)).drop (fv b i)).countP
      (fun x => decide (b.getD i 0 - BLOCKS_PER_HOUR ≤ x ∧ x ≤ b.getD i 0)) =
      ((b.take (i + 1)).drop (fv b i)).length := by
    rw [List.countP_eq_length]
    intro x hx
    obtain ⟨j, hj, hxj⟩ := List.mem_iff_getElem.mp hx
    have hlen : j < b.length - fv b i ∧ j < i + 1 - fv b i := by
      have := hj
      simp only [List.length_drop, List.length_take] at this
      omega
    have hxval : x = b.getD (fv b i + j) 0 := by
      rw [← hxj, List.getElem_drop, List.getElem_take,
        List.getD_eq_getElem _ _ (by omega)]
    have hup : b.getD (fv b i + j) 0 ≤ b.getD i 0 :=
      sorted_getD_mono hs (by omega) hi
    have hlow : b.getD (fv b i) 0 ≤ b.getD (fv b i + j) 0 :=
      sorted_getD_mono hs (by omega) (by omega)
    have hok := fv_ok b i
    simp only [decide_eq_true_eq]
    omega
  rw [hzero, hfull, List.length_drop, List.length_take]
  omega


theorem maxInWindow_eq_spec (b : List Int) (hs : b.Pairwise (· ≤ ·)) :
    maxInWindow b =
      (b.map fun v => b.countP fun x =>
        decide (v - BLOCKS_PER_HOUR ≤ x ∧ x ≤ v)).foldr max 0 := by
  rw [maxInWindow_eq b hs]
  apply le_antisymm
  · apply foldrMax_le
    intro a ha
    obtain ⟨i, hir, rfl⟩ := List.mem_map.mp ha
    have hi : i < b.length := List.mem_range.mp hir
    have h5 := count_take_eq b hs i hi
    have hle : ∀ p : Int → Bool, (b.take (i + 1)).countP p ≤ b.countP p := by
      intro p
      have : b.countP p = (b.take (i + 1)).countP p + (b.drop (i + 1)).countP p := by
        rw [← List.countP_append, List.take_append_drop]
      omega
    have hmem : b.getD i 0 ∈ b := by
      rw [List.getD_eq_getElem _ _ hi]
      exact List.getElem_mem _
    have hfvle := fv_le b i
    have hle2 := hle (fun x => decide (b.getD i 0 - BLOCKS_PER_HOUR ≤ x ∧ x ≤ b.getD i 0))
    have hcalc : i - fv b i + 1 ≤ b.countP
        (fun x => decide (b.getD i 0 - BLOCKS_PER_HOUR ≤ x ∧ x ≤ b.getD i 0)) := by omega
    exact le_trans hcalc (le_foldrMax (List.mem_map.mpr ⟨b.getD i 0, hmem, rfl⟩))
  · apply foldrMax_le
    intro a ha
    obtain ⟨v, hv, rfl⟩ := List.mem_map.mp ha
    have hanti : b.Pairwise fun x y => (decide (y ≤ v) = true) → (decide (x ≤ v) = true) :=
      hs.imp (by intro x y hxy; simp only [decide_eq_true_eq]; omega)
    have htwf : b.takeWhile (fun x => decide (x ≤ v)) = b.filter (fun x => decide (x ≤ v)) :=
      takeWhile_eq_filter_of_pairwise hanti
    set m := (b.takeWhile (fun x => decide (x ≤ v))).length with hm
    have htake : b.takeWhile (fun x => decide (x ≤ v)) = b.take m :=
      List.prefix_iff_eq_take.mp (List.takeWhile_prefix _)
    have hmlen : m ≤ b.length := by
      rw [hm]
      exact (List.takeWhile_prefix _).length_le
    have hvf : v ∈ b.filter (fun x => decide (x ≤ v)) := List.mem_filter.mpr ⟨hv, by simp⟩
    have hm1 : 1 ≤ m := by
      rw [hm, htwf]
      exact List.length_pos.mpr (List.ne_nil_of_mem hvf)
    have hcountP : b.countP (fun x => decide (x ≤ v)) = m := by
      rw [List.countP_eq_length_filter, ← htwf]
    have htakeall : ∀ x ∈ b.take m, x ≤ v := by
      intro x hx
      rw [← htake] at hx
      simpa using List.mem_takeWhile_imp hx
    have hdropfail : ∀ x ∈ b.drop m, ¬x ≤ v := by
      have hsum : b.countP (fun x => decide (x ≤ v)) =
          (b.take m).countP (fun x => decide (x ≤ v)) +
          (b.drop m).countP (fun x => decide (x ≤ v)) := by
        rw [← List.countP_append, List.take_append_drop]
      have htm : (b.take m).countP (fun x => decide (x ≤ v)) = (b.take m).length :=
        List.countP_eq_length.mpr fun x hx => by simpa using htakeall x hx
      have hlt : (b.take m).length = m := by
        rw [List.length_take]
        omega
      have hdz : (b.drop m).countP (fun x => decide (x ≤ v)) = 0 := by omega
      intro x hx hcon
      have := List.countP_eq_zero.mp hdz x hx
      simp only [decide_eq_true_eq] at this
      exact this hcon
    have hmb : m - 1 < b.length := by omega
    have hidx : b.getD (m - 1) 0 = v := by
      have hvtake : v ∈ b.take m := by
        have hva : v ∈ b.take m ++ b.drop m := by
          rw [List.take_append_drop]
          exact hv
        rcases List.mem_append.mp hva with h | h
        · exact h
        · exact absurd (le_refl v) (hdropfail v h)
      obtain ⟨j, hj, hvj⟩ := List.mem_iff_getElem.mp hvtake
      have hjm : j < m ∧ j < b.length := by
        have := hj
        simp only [List.length_take] at this
        omega
      have hvv : v = b.getD j 0 := by
        rw [← hvj, List.getElem_take, List.getD_eq_getElem _ _ (by omega)]
      have h1 : b.getD j 0 ≤ b.getD (m - 1) 0 := sorted_getD_mono hs (by omega) hmb
      have h2 : b.getD (m - 1) 0 ≤ v := by
        apply htakeall
        rw [List.getD_eq_getElem _ _ hmb]
        have hlt : m - 1 < (b.take m).length := by
          simp only [List.length_take]
          omega
        have hgt : (b.take m).get ⟨m - 1, hlt⟩ = b[m - 1] := by
          simp only [List.get_eq_getElem]
          exact List.getElem_take b
        rw [← hgt]
        exact List.get_mem _ _ _
      omega
    have hdropwin : (b.drop m).countP
        (fun x => decide (v - BLOCKS_PER_HOUR ≤ x ∧ x ≤ v)) = 0 := by
      rw [List.countP_eq_zero]
      intro x hx
      have := hdropfail x hx
      simp only [decide_eq_true_eq, not_and]
      omega
    have hsplit2 : b.countP (fun x => decide (v - BLOCKS_PER_HOUR ≤ x ∧ x ≤ v)) =
        (b.take m).countP (fun x => decide (v - BLOCKS_PER_HOUR ≤ x ∧ x ≤ v)) := by
      conv_lhs => rw [← List.take_append_drop m b]
      rw [List.countP_append, hdropwin]
      omega
    have h5 := count_take_eq b hs (m - 1) hmb
    rw [(by omega : m - 1 + 1 = m), hidx] at h5
    rw [hsplit2, h5]
    have hfv := fv_le b (m - 1)
    have hrw : m - fv b (m - 1) = (m - 1) - fv b (m - 1) + 1 := by omega
    rw [hrw]
    exact le_foldrMax (List.mem_map.mpr ⟨m - 1, List.mem_range.mpr hmb, rfl⟩)


theorem velSpecAux_perm (s l : List Int) (h : s.Perm l) :
    (s.map fun v => s.countP fun x => decide (v - BLOCKS_PER_HOUR ≤ x ∧ x ≤ v)).foldr max 0 =
    (l.map fun v => l.countP fun x => decide (v - BLOCKS_PER_HOUR ≤ x ∧ x ≤ v)).foldr max 0 := by
  apply le_antisymm <;>
    (apply foldrMax_le
     intro a ha
     obtain ⟨e, he, rfl⟩ := List.mem_map.mp ha)
  · rw [h.countP_eq]
    exact le_foldrMax (List.mem_map.mpr ⟨e, h.mem_iff.mp he, rfl⟩)
  · rw [← h.countP_eq]
    exact le_foldrMax (List.mem_map.mpr ⟨e, h.mem_iff.mpr he, rfl⟩)

theorem maxWindowSpec_eq (ts : List Transfer) :
    maxInWindow ((sortByBlock ts).map (·.blockNumber)) = maxWindowSpec ts := by
  have hperm : ((sortByBlock ts).map (·.blockNumber)).Perm (ts.map (·.blockNumber)) :=
    (List.mergeSort_perm ts _).map _
  have hsorted : ((sortByBlock ts).map (·.blockNumber)).Pairwise (· ≤ ·) := by
    rw [List.pairwise_map]
    exact (@List.sorted_mergeSort Transfer (fun a b => decide (a.blockNumber ≤ b.blockNumber))
      (by intro a b c; simp only [decide_eq_true_eq]; omega)
      (by intro a b; simp only [Bool.or_eq_true, decide_eq_true_eq]; omega) ts).imp
      (by intro a b hab; simpa using hab)
  rw [maxInWindow_eq_spec _ hsorted]
  simp only [maxWindowSpec]
  exact velSpecAux_perm _ _ hperm

/-- Claim C6: with fewer than 20 transfers no finding; otherwise the
detector computes the maximum number of transfers inside any
`BLOCKS_PER_HOUR`-sized sliding window (proved equal to the declarative
window maximum `maxWindowSpec`) and emits `HIGH_VELOCITY` iff that maximum
is at least 20, with severity `medium`, riskImpact 20 and confidence
`min 85 (30 + 30·(max/20))`.  25 transfers one block apart trigger it. -/
theorem high_velocity_detector (address : String) (ts : List Transfer) :
    (ts.length < HIGH_VELOCITY_TXS_PER_HOUR → detectHighVelocity address ts = none) ∧
    ((detectHighVelocity address ts).isSome ↔
      HIGH_VELOCITY_TXS_PER_HOUR ≤ ts.length ∧
      HIGH_VELOCITY_TXS_PER_HOUR ≤ maxWindowSpec ts) ∧
    (∀ f, detectHighVelocity address ts = some f →
      f = ⟨"HIGH_VELOCITY", "medium", 20,
        min 85 (30 + ((maxWindowSpec ts : Rat) / (HIGH_VELOCITY_TXS_PER_HOUR : Rat)) * 30)⟩) ∧
    detectHighVelocity addrA tsVelocity = some ⟨"HIGH_VELOCITY", "medium", 20, 135/2⟩ := by
  have hmw := maxWindowSpec_eq ts
  refine ⟨?_, ⟨?_, ?_⟩, ?_, by with_unfolding_all decide⟩
  · intro h
    simp only [detectHighVelocity]
    rw [if_pos h]
  · intro h
    simp only [detectHighVelocity] at h
    split_ifs at h with h1 h2
    · simp at h
    · simp at h
    · rw [← hmw]
      constructor <;> omega
  · rintro ⟨h1, h2⟩
    simp only [detectHighVelocity]
    rw [if_neg (by omega), if_neg (by rw [hmw]; omega)]
    simp
  · intro f hf
    simp only [detectHighVelocity] at hf
    split_ifs at hf with h1 h2
    rw [hmw] at hf
    exact (Option.some.injEq _ _ ▸ hf : _ = f).symm

/-- Witness for claim C6: the 25-transfer example's finding has the claimed
shape (window maximum 25, confidence 67.5). -/
theorem high_velocity_detector_witness :
    (⟨"HIGH_VELOCITY", "medium", 20, 135/2⟩ : Finding) = ⟨"HIGH_VELOCITY", "medium", 20,
      min 85 (30 + ((maxWindowSpec tsVelocity : Rat) / (HIGH_VELOCITY_TXS_PER_HOUR : Rat)) * 30)⟩ :=
  (high_velocity_detector addrA tsVelocity).2.2.1 _
    (high_velocity_detector addrA tsVelocity).2.2.2

theorem profile_riskFactors_nonneg (ds : DataSource) (address chain : String) :
    ∀ rf ∈ (analyzeAddressProfile ds address chain).riskFactors, 0 ≤ rf.impact := by
  unfold analyzeAddressProfile
  rcases ds.isContract chain address with e1 | isC <;>
    rcases ds.getTransactionCount chain address with e2 | tc <;>
    rcases ds.getUSDCBalance chain address with e3 | rawB <;>
    rcases ds.getBalance chain address with e4 | ethB <;>
    intro rf hrf <;>
    simp only [degradeProfile, rpcErrorFactor] at hrf <;>
    (try split_ifs at hrf) <;>
    simp_all <;>
    (try (rcases hrf with rfl | rfl | rfl | rfl <;> norm_num)) <;>
    (try (subst hrf ; norm_num))

theorem checkScamDatabase_riskScore (db : List (String × ScamEntryRaw)) (a : String)
    (sm : ScamMatch) (h : checkScamDatabase db a = some sm) :
    sm.riskScore = severityWeight sm.severity := by
  unfold checkScamDatabase at h
  rcases hl : db.lookup (jsToLower a) with _ | e <;> rw [hl] at h
  · cases h
  · cases h
    rfl

theorem repStep_score (db : List (String × ScamEntryRaw)) (ds : DataSource)
    (address : String) (rep : Reputation) (chain : String) :
    (reputationChainStep db ds address rep chain).overallScore = rep.overallScore := by
  simp only [reputationChainStep]
  split_ifs <;> rfl

theorem repFold_score (db : List (String × ScamEntryRaw)) (ds : DataSource)
    (address : String) (chains : List String) :
    ∀ rep : Reputation,
      (chains.foldl (reputationChainStep db ds address) rep).overallScore =
        rep.overallScore := by
  induction chains with
  | nil => intro rep; rfl
  | cons c t ih =>
    intro rep
    rw [List.foldl_cons, ih, repStep_score]

theorem repStep_factors (db : List (String × ScamEntryRaw)) (ds : DataSource)
    (address : String) (rep : Reputation) (chain : String)
    (h : ∀ rf ∈ rep.riskFactors, 0 ≤ rf.impact) :
    ∀ rf ∈ (reputationChainStep db ds address rep chain).riskFactors, 0 ≤ rf.impact := by
  intro rf hrf
  simp only [reputationChainStep] at hrf
  split_ifs at hrf <;> simp only [List.mem_append, List.mem_singleton] at hrf
  · rcases hrf with (hrf | hrf) | hrf
    · exact h rf hrf
    · exact profile_riskFactors_nonneg ds address chain rf hrf
    · subst hrf
      simp only []
      positivity
  · rcases hrf with hrf | hrf
    · exact h rf hrf
    · exact profile_riskFactors_nonneg ds address chain rf hrf

theorem repFold_factors (db : List (String × ScamEntryRaw)) (ds : DataSource)
    (address : String) (chains : List String) :
    ∀ rep : Reputation, (∀ rf ∈ rep.riskFactors, 0 ≤ rf.impact) →
      ∀ rf ∈ (chains.foldl (reputationChainStep db ds address) rep).riskFactors,
        0 ≤ rf.impact := by
  induction chains with
  | nil => intro rep h; exact h
  | cons c t ih =>
    intro rep h
    rw [List.foldl_cons]
    exact ih _ (repStep_factors db ds address rep c h)


theorem reputation_bounds (db : List (String × ScamEntryRaw)) (ds : DataSource)
    (address : String) (chains : List String) :
    0 ≤ (getReputation db ds address chains).overallScore ∧
    (getReputation db ds address chains).overallScore ≤ 100 ∧
    (getReputation db ds address chains).level =
      scoreToLevel (getReputation db ds address chains).overallScore := by
  unfold getReputation
  rcases hsm : checkScamDatabase db address with _ | sm <;> simp only [hsm]
  · have hfac := repFold_factors db ds address chains
      ⟨jsToLower address, 0, "CLEAN", [], none, [], [], []⟩ (by intro rf hrf; cases hrf)
    have hsum : 0 ≤ (((chains.foldl (reputationChainStep db ds address)
        ⟨jsToLower address, 0, "CLEAN", [], none, [], [], []⟩).riskFactors.map
          (·.impact)).sum) := by
      apply List.sum_nonneg
      intro x hx
      obtain ⟨rf, hrf, rfl⟩ := List.mem_map.mp hx
      exact hfac rf hrf
    refine ⟨?_, ?_, trivial⟩
    · show (0 : Int) ≤ min 100 _
      omega
    · show min (100 : Int) _ ≤ 100
      omega
  · have hsw := severityWeight_bounds sm.severity
    have hrs := checkScamDatabase_riskScore db address sm hsm
    refine ⟨?_, ?_, trivial⟩ <;> rw [repFold_score] <;> simp only [] <;> omega

theorem washImpact (a : String) (ts : List Transfer) (f : Finding)
    (h : detectWashTrading a ts = some f) : 0 ≤ f.riskImpact := by
  simp only [detectWashTrading] at h
  split_ifs at h with h1
  cases h
  norm_num

theorem flashImpact (a : String) (ts : List Transfer) (f : Finding)
    (h : detectFlashLoanPatterns a ts = some f) : 0 ≤ f.riskImpact := by
  simp only [detectFlashLoanPatterns] at h
  split_ifs at h with h1
  cases h
  norm_num

theorem velocityImpact (a : String) (ts : List Transfer) (f : Finding)
    (h : detectHighVelocity a ts = some f) : 0 ≤ f.riskImpact := by
  simp only [detectHighVelocity] at h
  split_ifs at h with h1 h2
  cases h
  norm_num

theorem circularImpact (a : String) (ts : List Transfer) (f : Finding)
    (h : detectCircularFlows a ts = some f) : 0 ≤ f.riskImpact := by
  simp only [detectCircularFlows] at h
  split_ifs at h with h1 h2 <;> cases h <;> simp only [] <;> omega

theorem largeImpact (ts : List Transfer) (f : Finding)
    (h : detectLargeTransfers ts = some f) : 0 ≤ f.riskImpact := by
  simp only [detectLargeTransfers] at h
  split_ifs at h <;> cases h <;> norm_num

theorem analyzePatterns_nonneg (address : String) (ts : List Transfer) :
    ∀ f ∈ analyzePatterns address ts, 0 ≤ f.riskImpact := by
  intro f hf
  simp only [analyzePatterns, List.mem_filterMap, id] at hf
  obtain ⟨o, ho, rfl⟩ := hf
  simp only [List.mem_cons, List.mem_singleton, List.not_mem_nil, or_false] at ho
  rcases ho with h1 | h1 | h1 | h1 | h1
  · exact washImpact _ _ _ h1.symm
  · exact flashImpact _ _ _ h1.symm
  · exact velocityImpact _ _ _ h1.symm
  · exact circularImpact _ _ _ h1.symm
  · exact largeImpact _ _ h1.symm


theorem rapidImpact (deps : List CCTPDeposit) (f : Finding)
    (h : detectRapidBridging deps = some f) : 0 ≤ f.riskImpact := by
  simp only [detectRapidBridging] at h
  split_ifs at h <;> cases h <;> simp only [] <;> omega

theorem hopImpact (deps : List CCTPDeposit) (f : Finding)
    (h : detectChainHopping deps = some f) : 0 ≤ f.riskImpact := by
  simp only [detectChainHopping] at h
  split_ifs at h <;> cases h <;> norm_num

theorem cctp_factors_nonneg (ds : DataSource) (address : String) (chains : List String) :
    ∀ rf ∈ (analyzeCrossChainActivity ds address chains).riskFactors, 0 ≤ rf.impact := by
  intro rf hrf
  simp only [analyzeCrossChainActivity] at hrf
  split_ifs at hrf with h1
  · simp at hrf
  · rcases hr : detectRapidBridging _ with _ | p <;>
      rcases hh : detectChainHopping _ with _ | q <;>
      rw [hr, hh] at hrf <;>
      simp at hrf <;>
      (try (rcases hrf with hrf | hrf)) <;>
      (try subst hrf) <;> simp_all <;>
      (first
        | exact rapidImpact _ _ hr
        | exact hopImpact _ _ hh)

theorem scanStepPatterns_bounds (ds : DataSource) (address : String)
    (chains : List String) (depth : Depth) (r : ScanResult)
    (h0 : 0 ≤ r.overallScore) (h100 : r.overallScore ≤ 100) :
    0 ≤ (scanStepPatterns ds address chains depth r).overallScore ∧
    (scanStepPatterns ds address chains depth r).overallScore ≤ 100 ∧
    r.overallScore ≤ (scanStepPatterns ds address chains depth r).overallScore := by
  have hsum : 0 ≤ ((scanPatternFindings ds address chains).map (·.riskImpact)).sum := by
    apply List.sum_nonneg
    intro x hx
    obtain ⟨f, hf, rfl⟩ := List.mem_map.mp hx
    obtain ⟨l, hl, hfl⟩ := List.mem_flatten.mp hf
    obtain ⟨chain, _, rfl⟩ := List.mem_map.mp hl
    simp only [] at hfl
    split_ifs at hfl with hc
    · cases hfl
    · exact analyzePatterns_nonneg _ _ f hfl
  unfold scanStepPatterns
  split_ifs <;> refine ⟨?_, ?_, ?_⟩ <;> (try dsimp only) <;> omega

theorem scanStepCCTP_bounds (ds : DataSource) (address : String)
    (chains : List String) (depth : Depth) (r : ScanResult)
    (h0 : 0 ≤ r.overallScore) (h100 : r.overallScore ≤ 100) :
    0 ≤ (scanStepCCTP ds address chains depth r).overallScore ∧
    (scanStepCCTP ds address chains depth r).overallScore ≤ 100 ∧
    r.overallScore ≤ (scanStepCCTP ds address chains depth r).overallScore := by
  have hsum : 0 ≤ (((analyzeCrossChainActivity ds address chains).riskFactors).map
      (·.impact)).sum := by
    apply List.sum_nonneg
    intro x hx
    obtain ⟨rf, hrf, rfl⟩ := List.mem_map.mp hx
    exact cctp_factors_nonneg _ _ _ rf hrf
  unfold scanStepCCTP
  split_ifs <;> (try dsimp only) <;> (try split_ifs) <;>
    refine ⟨?_, ?_, ?_⟩ <;> (try dsimp only) <;> omega

theorem scan_score_shape (db : List (String × ScamEntryRaw)) (ds : DataSource)
    (address : String) (chainsOpt : ChainsOpt) (depth : Depth) :
    ∀ r, scanAddress db ds address chainsOpt depth = Except.ok r →
      0 ≤ r.overallScore ∧ r.overallScore ≤ 100 ∧
      r.level = bandOf r.overallScore ∧
      (getReputation db ds address (resolveChains chainsOpt)).overallScore ≤
        r.overallScore := by
  intro r hr
  unfold scanAddress at hr
  split_ifs at hr with hb <;> cases hr
  obtain ⟨h0, h100, _⟩ := reputation_bounds db ds address (resolveChains chainsOpt)
  obtain ⟨p0, p100, pmono⟩ := scanStepPatterns_bounds ds address
    (resolveChains chainsOpt) depth
    ⟨jsToLower address, (getReputation db ds address (resolveChains chainsOpt)).chains,
      [], [], getReputation db ds address (resolveChains chainsOpt),
      (getReputation db ds address (resolveChains chainsOpt)).overallScore, "CLEAN"⟩
    h0 h100
  obtain ⟨c0, c100, cmono⟩ := scanStepCCTP_bounds ds address
    (resolveChains chainsOpt) depth
    (scanStepPatterns ds address (resolveChains chainsOpt) depth
      ⟨jsToLower address, (getReputation db ds address (resolveChains chainsOpt)).chains,
        [], [], getReputation db ds address (resolveChains chainsOpt),
        (getReputation db ds address (resolveChains chainsOpt)).overallScore, "CLEAN"⟩)
    p0 p100
  exact ⟨c0, c100, scoreToLevel_eq_bandOf _ c0 c100, le_trans pmono cmono⟩

theorem bounds_band_pack (x : Int) (lvl : String) (h0 : 0 ≤ x) (h100 : x ≤ 100)
    (hl : lvl = scoreToLevel x) : 0 ≤ x ∧ x ≤ 100 ∧ lvl = bandOf x :=
  ⟨h0, h100, hl.trans (scoreToLevel_eq_bandOf x h0 h100)⟩

theorem foldClamp_bounds (l : List RiskFactor) :
    ∀ s : Int, (∀ rf ∈ l, 0 ≤ rf.impact) → 0 ≤ s → s ≤ 100 →
    0 ≤ l.foldl (fun (s : Int) (rf : RiskFactor) => min 100 (s + rf.impact)) s ∧
    l.foldl (fun (s : Int) (rf : RiskFactor) => min 100 (s + rf.impact)) s ≤ 100 := by
  induction l with
  | nil => intro s h h0 h100; exact ⟨h0, h100⟩
  | cons a t ih =>
    intro s h h0 h100
    simp only [List.foldl_cons]
    have ha := h a (List.mem_cons_self a t)
    exact ih _ (fun rf hrf => h rf (List.mem_cons_of_mem a hrf)) (by omega) (by omega)

theorem validate_score_shape (db : List (String × ScamEntryRaw)) (ds : DataSource)
    (recipient : String) (amount : Rat) (chainOpt : Option String)
    (hvalid : isValidAddress recipient = true) :
    ∀ v, validateTransfer db ds recipient amount chainOpt = Except.ok v →
      0 ≤ v.overallScore ∧ v.overallScore ≤ 100 ∧
      v.level = bandOf v.overallScore := by
  have hprof := profile_riskFactors_nonneg ds recipient (chainOpt.getD "base")
  unfold validateTransfer
  simp only [hvalid, Bool.not_true, Bool.false_eq_true, if_false]
  rcases h : checkScamDatabase db recipient with _ | sm
  · have hfold := foldClamp_bounds
      (analyzeAddressProfile ds recipient (chainOpt.getD "base")).riskFactors 0 hprof
      le_rfl (by norm_num)
    simp only [h]
    split_ifs <;> intro v hv <;> (injection hv with hv2) <;> subst hv2 <;>
      exact bounds_band_pack _ _ (by (try dsimp only) <;> omega)
        (by (try dsimp only) <;> omega) rfl
  · have hrs := checkScamDatabase_riskScore db recipient sm h
    have hsb := severityWeight_bounds sm.severity
    have hfold := foldClamp_bounds
      (analyzeAddressProfile ds recipient (chainOpt.getD "base")).riskFactors
      sm.riskScore hprof (by omega) (by omega)
    simp only [h]
    split_ifs <;> intro v hv <;> (injection hv with hv2) <;> subst hv2 <;>
      exact bounds_band_pack _ _ (by (try dsimp only) <;> omega)
        (by (try dsimp only) <;> omega) rfl

theorem getReputation_scam_score (db : List (String × ScamEntryRaw)) (ds : DataSource)
    (address : String) (chains : List String) (sm : ScamMatch)
    (hsm : checkScamDatabase db address = some sm) :
    (getReputation db ds address chains).overallScore = sm.riskScore := by
  unfold getReputation
  rw [hsm]
  dsimp only
  rw [repFold_score]

/-- Claim C1: for every valid address, with any registry and DataSource
behavior, every successfully produced result of a full scan (`scanAddress`,
at any depth), a reputation query (`getReputation` via the scanner wrapper),
or a transfer validation (`validateTransfer`) has `overallScore ∈ [0, 100]`
and a `level` equal to the band of that score in the `RISK_LEVELS` table:
CLEAN for 0–9, LOW for 10–39, MEDIUM for 40–69, HIGH for 70–89, CRITICAL
for 90–100. -/
theorem score_bounds_and_bands (db : List (String × ScamEntryRaw)) (ds : DataSource)
    (address : String) (chainsOpt : ChainsOpt) (depth : Depth)
    (amount : Rat) (chainOpt : Option String)
    (hvalid : isValidAddress address = true) :
    (∀ s : Int, 0 ≤ s → s ≤ 100 →
      bandOf s = if 90 ≤ s then "CRITICAL" else if 70 ≤ s then "HIGH"
        else if 40 ≤ s then "MEDIUM" else if 10 ≤ s then "LOW" else "CLEAN") ∧
    (∀ r, scanAddress db ds address chainsOpt depth = Except.ok r →
      0 ≤ r.overallScore ∧ r.overallScore ≤ 100 ∧
      r.level = bandOf r.overallScore) ∧
    (∀ rep, getReputationScanner db ds address chainsOpt = Except.ok rep →
      0 ≤ rep.overallScore ∧ rep.overallScore ≤ 100 ∧
      rep.level = bandOf rep.overallScore) ∧
    (∀ v, validateTransfer db ds address amount chainOpt = Except.ok v →
      0 ≤ v.overallScore ∧ v.overallScore ≤ 100 ∧
      v.level = bandOf v.overallScore) := by
  refine ⟨fun s h0 h100 => (scoreToLevel_eq_bandOf s h0 h100).symm,
    fun r hr => ?_, fun rep hrep => ?_, validate_score_shape db ds address amount
      chainOpt hvalid⟩
  · obtain ⟨h0, h100, hband, _⟩ := scan_score_shape db ds address chainsOpt depth r hr
    exact ⟨h0, h100, hband⟩
  · unfold getReputationScanner at hrep
    simp only [hvalid, Bool.not_true, Bool.false_eq_true, if_false] at hrep
    injection hrep with hrep2
    subst hrep2
    obtain ⟨h0, h100, hlvl⟩ := reputation_bounds db ds address (resolveChains chainsOpt)
    exact ⟨h0, h100, hlvl.trans (scoreToLevel_eq_bandOf _ h0 h100)⟩

/-- Witness for claim C1: validating a 0-USDC transfer to `addrB` against an
empty registry with an all-failing DataSource yields score 10 in band LOW. -/
theorem score_bounds_and_bands_witness :
    0 ≤ vB.overallScore ∧ vB.overallScore ≤ 100 ∧ vB.level = bandOf vB.overallScore :=
  (score_bounds_and_bands [] dsFail addrB ChainsOpt.all Depth.quick 0 none
    (by decide)).2.2.2 vB (by with_unfolding_all rfl)

/-- Counterexample for claim C2: `addrA` is registered with severity high
(weight 75), yet a standard-depth scan that also sees one large transfer adds
the pattern risk on top and reports 85 ≠ 75 — the scam-match score is a floor,
not authoritative. -/
theorem scam_score_counterexample :
    checkScamDatabase dbScam addrA = some smA ∧
    smA.riskScore = severityWeight smA.severity ∧ severityWeight "high" = 75 ∧
    (scanAddress dbScam dsLargeTx addrA (ChainsOpt.one "base") Depth.standard).map
      (fun r => r.overallScore) = Except.ok 85 := by
  refine ⟨by with_unfolding_all decide, by with_unfolding_all decide, rfl,
    by with_unfolding_all rfl⟩

/-- Claim C2 (amended): a scam-registry match pins the reputation-stage score
to exactly the entry severity weight (the reputation calculation
short-circuits additive scoring), and every successful full scan reports at
least that weight; pattern and CCTP risk may push the final scan score above
it. -/
theorem scam_match_floor (db : List (String × ScamEntryRaw)) (ds : DataSource)
    (address : String) (chainsOpt : ChainsOpt) (depth : Depth) (sm : ScamMatch)
    (hsm : checkScamDatabase db address = some sm) :
    (getReputation db ds address (resolveChains chainsOpt)).overallScore =
      sm.riskScore ∧
    sm.riskScore = severityWeight sm.severity ∧
    ∀ r, scanAddress db ds address chainsOpt depth = Except.ok r →
      sm.riskScore ≤ r.overallScore := by
  have h1 := getReputation_scam_score db ds address (resolveChains chainsOpt) sm hsm
  refine ⟨h1, checkScamDatabase_riskScore db address sm hsm, fun r hr => ?_⟩
  have h4 := (scan_score_shape db ds address chainsOpt depth r hr).2.2.2
  omega

/-- Witness for the amended claim C2: the registered `addrA` (weight 75) under
the large-transfer DataSource. -/
theorem scam_match_floor_witness :
    (getReputation dbScam dsLargeTx addrA
        (resolveChains (ChainsOpt.one "base"))).overallScore = smA.riskScore ∧
    smA.riskScore = severityWeight smA.severity ∧
    ∀ r, scanAddress dbScam dsLargeTx addrA (ChainsOpt.one "base") Depth.standard =
        Except.ok r → smA.riskScore ≤ r.overallScore :=
  scam_match_floor dbScam dsLargeTx addrA (ChainsOpt.one "base") Depth.standard smA
    (by with_unfolding_all decide)

end USDCScanner
